import Mathlib

/-!
Verification of the mini-cern workload orchestration engine.

The development shallowly embeds the three core modules of the repository —
`workflow/task_scheduler.py`, `workflow/workflow_engine.py` and
`safety/oversight_monitor.py` — as executable Lean definitions and proves or
refutes the behavioural claims made about them.

Modelling conventions:
* Python `datetime.utcnow()` is modelled by a monotone `Nat` clock stored in
  the state; each read of the clock advances it.
* Python `float` amounts and percentages are modelled by `ℚ` (the source only
  ever adds, subtracts, compares and divides resource quantities).
* `uuid4()` is modelled by a `Nat` counter stored in the state.
* Python dicts keyed by strings are modelled by association lists
  (`List (String × _)`), preserving insertion order, or by total functions
  with a default value when the source uses a `defaultdict`.
* `asyncio.create_task` bodies are run synchronously at the spawn point; all
  claims treated here concern sequential executions of the loops.
* A raised-and-swallowed `ZeroDivisionError` inside the statistics update is
  recorded in the ghost field `zeroDivErrors` of the scheduler state.
-/

namespace MiniCern

/-- Insertion-ordered association list update, modelling `d[k] = v` on a
Python dict (whose keys are unique): replace in place when the key is
present, append otherwise. -/
def aset {α : Type} (l : List (String × α)) (k : String) (v : α) :
    List (String × α) :=
  match l with
  | [] => [(k, v)]
  | p :: ps => if p.1 == k then (k, v) :: ps else p :: aset ps k v

theorem beq_false_of_ne {α : Type} [BEq α] [LawfulBEq α] {a b : α}
    (h : a ≠ b) : (a == b) = false := by
  cases hab : a == b
  · rfl
  · exact absurd (eq_of_beq hab) h

theorem lookup_aset_self {α : Type} (l : List (String × α)) (k : String)
    (v : α) : (aset l k v).lookup k = some v := by
  induction l with
  | nil => simp [aset, List.lookup]
  | cons p ps ih =>
    by_cases h : p.1 = k
    · simp [aset, h, List.lookup]
    · simp [aset, beq_false_of_ne h, List.lookup,
        beq_false_of_ne (Ne.symm h), ih]

theorem lookup_aset_ne {α : Type} (l : List (String × α)) (k : String)
    (v : α) (k' : String) (h : k' ≠ k) :
    (aset l k v).lookup k' = l.lookup k' := by
  induction l with
  | nil => simp [aset, List.lookup, beq_false_of_ne h]
  | cons p ps ih =>
    by_cases hp : p.1 = k
    · subst hp
      simp [aset, List.lookup, beq_false_of_ne h]
    · by_cases hk : k' = p.1
      · simp [aset, List.lookup, beq_false_of_ne hp, hk]
      · simp [aset, List.lookup, beq_false_of_ne hp,
          beq_false_of_ne hk, ih]

/-- `del d[k]` on a Python dict. -/
def adel {α : Type} (l : List (String × α)) (k : String) :
    List (String × α) :=
  l.filter (fun p => ¬ p.1 == k)

/-- Kernel-computable check that `pat` is a prefix of `l`. -/
def listHasPrefix : List Char → List Char → Bool
  | _, [] => true
  | [], _ :: _ => false
  | a :: as, b :: bs => a == b && listHasPrefix as bs

/-- Kernel-computable check that `pat` occurs inside `l` (Python `in`). -/
def listContainsSub : List Char → List Char → Bool
  | [], pat => pat.isEmpty
  | l@(_ :: as), pat => listHasPrefix l pat || listContainsSub as pat

/-- Python `pat in s` on strings. -/
def strContainsSub (s pat : String) : Bool :=
  listContainsSub s.data pat.data

/-- Left-to-right removal of non-overlapping occurrences of `pat`;
`fuel` is instantiated with the list length. -/
def removeAllAux (pat : List Char) : Nat → List Char → List Char
  | 0, l => l
  | _ + 1, [] => []
  | fuel + 1, l@(c :: cs) =>
    if pat ≠ [] ∧ listHasPrefix l pat then
      removeAllAux pat fuel (l.drop pat.length)
    else
      c :: removeAllAux pat fuel cs

/-- Python `s.replace(pat, "")`. -/
def strRemoveAll (s pat : String) : String :=
  ⟨removeAllAux pat.data s.data.length s.data⟩

namespace Sched

/-- `PriorityLevel` from `task_scheduler.py` (numeric values for scheduling). -/
inductive PriorityLevel where
  | critical
  | high
  | medium
  | low
  | background
deriving DecidableEq, Repr

/-- The numeric `.value` of each priority level (CRITICAL = 0 … BACKGROUND = 4). -/
def PriorityLevel.value : PriorityLevel → Nat
  | .critical => 0
  | .high => 1
  | .medium => 2
  | .low => 3
  | .background => 4

/-- `TaskStatus` from `task_scheduler.py`. -/
inductive TaskStatus where
  | queued
  | assigned
  | executing
  | completed
  | failed
  | cancelled
  | timeout
deriving DecidableEq, Repr

/-- `ResourceType` from `task_scheduler.py`. -/
inductive ResourceType where
  | agent
  | compute
  | memory
  | storage
  | network
deriving DecidableEq, Repr

/-- `ResourceRequirement` dataclass. -/
structure ResourceRequirement where
  resourceType : ResourceType
  amount : ℚ
deriving DecidableEq, Repr

/-- `ResourceAllocation` dataclass (`allocation_id` is the uuid counter value). -/
structure ResourceAllocation where
  allocationId : Nat
  taskId : String
  resourceType : ResourceType
  allocatedAmount : ℚ
  allocatedResources : List String
deriving DecidableEq, Repr

/-- `ScheduledTask` dataclass, restricted to the fields the scheduler logic
reads or writes.  `agentRequirements` / `capabilityRequirements` keep only the
names of the required agent types and capabilities. -/
structure ScheduledTask where
  taskId : String
  taskType : String
  priority : PriorityLevel
  createdAt : Nat
  scheduledFor : Option Nat := none
  agentRequirements : List String := []
  capabilityRequirements : List String := []
  resourceRequirements : List ResourceRequirement := []
  status : TaskStatus := .queued
  assignedAgentId : Option String := none
  assignedAt : Option Nat := none
  startedAt : Option Nat := none
  completedAt : Option Nat := none
  dependsOn : List String := []
  errorMessage : Option String := none
  maxRetries : Nat := 3
  retryCount : Nat := 0
  retryDelayMinutes : Nat := 5
deriving DecidableEq, Repr

/-- `ScheduledTask.__lt__`: priority value first, creation time as tie break. -/
def taskLt (a b : ScheduledTask) : Bool :=
  if a.priority.value ≠ b.priority.value then
    decide (a.priority.value < b.priority.value)
  else
    decide (a.createdAt < b.createdAt)

theorem taskLt_true_iff (a b : ScheduledTask) :
    taskLt a b = true ↔
      a.priority.value < b.priority.value ∨
        (a.priority.value = b.priority.value ∧ a.createdAt < b.createdAt) := by
  by_cases h : a.priority.value = b.priority.value <;> simp [taskLt, h]

theorem taskLt_false_iff (a b : ScheduledTask) :
    taskLt a b = false ↔
      b.priority.value < a.priority.value ∨
        (a.priority.value = b.priority.value ∧ b.createdAt ≤ a.createdAt) := by
  rw [← Bool.not_eq_true, taskLt_true_iff]
  omega

/-- `taskLt` is transitive. -/
theorem taskLt_trans {a b c : ScheduledTask} (h1 : taskLt a b = true)
    (h2 : taskLt b c = true) : taskLt a c = true := by
  rw [taskLt_true_iff] at h1 h2 ⊢
  omega

/-- If `b` is not below `c` and `a` is strictly below `c`, then `a` is
strictly below `b`. -/
theorem taskLt_of_lt_of_not_lt {a b c : ScheduledTask}
    (h1 : taskLt a c = true) (h2 : taskLt b c = false) : taskLt a b = true := by
  rw [taskLt_true_iff] at h1 ⊢
  rw [taskLt_false_iff] at h2
  omega

/-- Extract a minimal element (w.r.t. `taskLt`) from `m :: l`, returning the
minimum and the remaining elements.  This models the observable behaviour of
`heapq.heappop`: the popped task compares no-greater than every task left in
the heap.  Among equally ordered tasks the earliest list position is chosen. -/
def selectMin (m : ScheduledTask) : List ScheduledTask → ScheduledTask × List ScheduledTask
  | [] => (m, [])
  | x :: xs =>
    if taskLt x m then
      let r := selectMin x xs
      (r.1, m :: r.2)
    else
      let r := selectMin m xs
      (r.1, x :: r.2)

/-- Pop the minimum task of the queue, if any. -/
def popMin? : List ScheduledTask → Option (ScheduledTask × List ScheduledTask)
  | [] => none
  | x :: xs => some (selectMin x xs)

/-- Successive `heappop`s of the whole queue (`fuel` bounds the iteration). -/
def drain : Nat → List ScheduledTask → List ScheduledTask
  | 0, _ => []
  | fuel + 1, l =>
    match popMin? l with
    | none => []
    | some (m, rest) => m :: drain fuel rest

/-- Pop order of a whole queue. -/
def drainAll (l : List ScheduledTask) : List ScheduledTask :=
  drain l.length l

theorem selectMin_perm (m : ScheduledTask) (l : List ScheduledTask) :
    List.Perm ((selectMin m l).1 :: (selectMin m l).2) (m :: l) := by
  induction l generalizing m with
  | nil => simp [selectMin]
  | cons x xs ih =>
    by_cases h : taskLt x m
    · simp only [selectMin, h, if_pos]
      exact (List.Perm.swap _ _ _).trans ((ih x).cons m)
    · simp only [selectMin, h, if_neg, not_false_iff]
      exact ((List.Perm.swap _ _ _).trans (((ih m).cons x).trans
        (List.Perm.swap _ _ _)))

theorem selectMin_not_lt (m : ScheduledTask) (l : List ScheduledTask) :
    ∀ x, (x = m ∨ x ∈ l) → taskLt x (selectMin m l).1 = false := by
  induction l generalizing m with
  | nil =>
    intro x hx
    rcases hx with rfl | h
    · simp only [selectMin]
      rw [taskLt_false_iff]
      omega
    · cases h
  | cons y ys ih =>
    intro x hx
    cases hb : taskLt y m with
    | false =>
      simp only [selectMin, hb, Bool.false_eq_true, if_false]
      rcases hx with rfl | hxl
      · exact ih x x (Or.inl rfl)
      · rcases List.mem_cons.mp hxl with rfl | hmem
        · -- x = y is not below m, and m is not below the recursive minimum
          by_contra hc
          rw [Bool.not_eq_false] at hc
          have hxm := taskLt_of_lt_of_not_lt hc (ih m m (Or.inl rfl))
          rw [hb] at hxm
          exact Bool.false_ne_true hxm
        · exact ih m x (Or.inr hmem)
    | true =>
      simp only [selectMin, hb, if_true]
      rcases hx with rfl | hxl
      · -- x = m sits above y, which itself is not below the recursive minimum
        by_contra hc
        rw [Bool.not_eq_false] at hc
        have hylt := taskLt_trans hb hc
        rw [ih y y (Or.inl rfl)] at hylt
        exact Bool.false_ne_true hylt
      · rcases List.mem_cons.mp hxl with rfl | hmem
        · exact ih x x (Or.inl rfl)
        · exact ih y x (Or.inr hmem)

theorem drain_perm (fuel : Nat) (l : List ScheduledTask) (h : l.length ≤ fuel) :
    List.Perm (drain fuel l) l := by
  induction fuel generalizing l with
  | zero =>
    have : l = [] := List.length_eq_zero.mp (Nat.le_zero.mp h)
    subst this; simp [drain]
  | succ n ih =>
    cases l with
    | nil => simp [drain, popMin?]
    | cons x xs =>
      simp only [drain, popMin?]
      have hperm := selectMin_perm x xs
      have hlen : (selectMin x xs).2.length ≤ n := by
        have := hperm.length_eq
        simp only [List.length_cons] at this h
        omega
      exact ((ih _ hlen).cons _).trans hperm

theorem mem_drain (fuel : Nat) (l : List ScheduledTask) :
    ∀ b ∈ drain fuel l, b ∈ l := by
  induction fuel generalizing l with
  | zero => simp [drain]
  | succ n ih =>
    cases l with
    | nil => simp [drain, popMin?]
    | cons x xs =>
      simp only [drain, popMin?]
      intro b hb
      rcases List.mem_cons.mp hb with hb1 | hb2
      · subst hb1
        exact (selectMin_perm x xs).mem_iff.mp (List.mem_cons_self _ _)
      · exact (selectMin_perm x xs).mem_iff.mp
          (List.mem_cons_of_mem _ (ih _ _ hb2))

theorem drain_pairwise (fuel : Nat) (l : List ScheduledTask) :
    (drain fuel l).Pairwise (fun a b => taskLt b a = false) := by
  induction fuel generalizing l with
  | zero => simp [drain]
  | succ n ih =>
    cases l with
    | nil => simp [drain, popMin?]
    | cons x xs =>
      simp only [drain, popMin?]
      refine List.Pairwise.cons ?_ (ih _)
      intro b hb
      have hmem : b ∈ (selectMin x xs).2 := mem_drain n _ b hb
      have hor : b = x ∨ b ∈ xs := by
        have := (selectMin_perm x xs).mem_iff.mp (List.mem_cons_of_mem _ hmem)
        simpa using this
      exact selectMin_not_lt x xs b hor

/-- The static `resource_limits` table of `TaskScheduler.__init__`. -/
def resourceLimits : ResourceType → ℚ
  | .agent => 100
  | .compute => 1000
  | .memory => 16384
  | .storage => 102400
  | .network => 1000

/-- `max_concurrent_tasks` configuration value. -/
def maxConcurrentTasks : Nat := 50

/-- The mutable state of a `TaskScheduler` instance.  `zeroDivErrors` is a
ghost counter recording every `ZeroDivisionError` raised (and swallowed by
the asyncio machinery) inside `_update_stats`. -/
structure SchedulerState where
  taskQueue : List ScheduledTask := []
  activeTasks : List (String × ScheduledTask) := []
  completedTasks : List (String × ScheduledTask) := []
  resourceAllocations : List ResourceAllocation := []
  agentWorkloads : String → Nat := fun _ => 0
  resourceUsage : ResourceType → ℚ := fun _ => 0
  statsTasksScheduled : Nat := 0
  statsTasksCompleted : Nat := 0
  statsTasksFailed : Nat := 0
  avgWaitTimeMinutes : ℚ := 0
  avgExecutionTimeMinutes : ℚ := 0
  clock : Nat := 0
  nextId : Nat := 0
  zeroDivErrors : Nat := 0

/-- `TaskScheduler._check_dependencies`: every dependency id must be present
in `completed_tasks`, or else be an active task whose status is `COMPLETED`. -/
def checkDependencies (s : SchedulerState) (task : ScheduledTask) : Bool :=
  task.dependsOn.all fun dep =>
    match s.completedTasks.lookup dep with
    | some _ => true
    | none =>
      match s.activeTasks.lookup dep with
      | some depTask => depTask.status == TaskStatus.completed
      | none => false

/-- `TaskScheduler._allocate_resource`: refuse when the request would push
usage past the limit, otherwise record the usage and build the allocation. -/
def allocateResource (s : SchedulerState) (req : ResourceRequirement)
    (taskId : String) : Option (ResourceAllocation × SchedulerState) :=
  let currentUsage := s.resourceUsage req.resourceType
  let limit := resourceLimits req.resourceType
  if currentUsage + req.amount > limit then
    none
  else
    let alloc : ResourceAllocation :=
      { allocationId := s.nextId
        taskId := taskId
        resourceType := req.resourceType
        allocatedAmount := req.amount
        allocatedResources := [] }
    let s' :=
      { s with
        resourceUsage := fun r =>
          if r = req.resourceType then currentUsage + req.amount
          else s.resourceUsage r
        nextId := s.nextId + 1
        clock := s.clock + 1 }
    some (alloc, s')

/-- `TaskScheduler._deallocate_resource`: agent allocations decrement the
provider workload (deleting the counter at zero, which the `Nat`-valued
model renders as truncation at zero); other allocations subtract the
allocated amount from recorded usage. -/
def deallocateResource (s : SchedulerState) (alloc : ResourceAllocation) :
    SchedulerState :=
  if alloc.resourceType = ResourceType.agent then
    { s with
      agentWorkloads := fun a =>
        if alloc.allocatedResources.contains a then s.agentWorkloads a - 1
        else s.agentWorkloads a }
  else
    { s with
      resourceUsage := fun r =>
        if r = alloc.resourceType then
          s.resourceUsage r - alloc.allocatedAmount
        else s.resourceUsage r }

/-- The non-agent allocation loop of `TaskScheduler._allocate_resources`:
walk the declared requirements, skipping agent-type ones; on the first
refusal, deallocate every allocation already made and fail; on success,
store all allocations in `resource_allocations`. -/
def allocLoop (task : ScheduledTask) :
    List ResourceRequirement → SchedulerState → List ResourceAllocation →
    Bool × SchedulerState
  | [], s, allocs =>
    (true, { s with resourceAllocations := s.resourceAllocations ++ allocs })
  | req :: reqs, s, allocs =>
    if req.resourceType = ResourceType.agent then
      allocLoop task reqs s allocs
    else
      match allocateResource s req task.taskId with
      | none => (false, allocs.foldl deallocateResource s)
      | some (alloc, s') => allocLoop task reqs s' (allocs ++ [alloc])

/-- The provider-selection outcome of `TaskScheduler._allocate_agent`, an
external-registry dependent computation, abstracted as a parameter. -/
def AgentSel : Type := SchedulerState → ScheduledTask → Option String

/-- `TaskScheduler._allocate_resources`: allocate an agent when the task
declares agent or capability requirements, then allocate every non-agent
resource requirement, rolling everything back on the first failure.  The
returned task carries the `assigned_agent_id` mutation. -/
def allocateResources (sel : AgentSel) (s : SchedulerState)
    (task : ScheduledTask) : Bool × SchedulerState × ScheduledTask :=
  if task.agentRequirements ≠ [] ∨ task.capabilityRequirements ≠ [] then
    match sel s task with
    | none => (false, s, task)
    | some agentId =>
      let task' := { task with assignedAgentId := some agentId }
      let agentAlloc : ResourceAllocation :=
        { allocationId := s.nextId
          taskId := task.taskId
          resourceType := .agent
          allocatedAmount := 1
          allocatedResources := [agentId] }
      let s' :=
        { s with
          agentWorkloads := fun a =>
            if a = agentId then s.agentWorkloads a + 1
            else s.agentWorkloads a
          nextId := s.nextId + 1
          clock := s.clock + 1 }
      let r := allocLoop task' task'.resourceRequirements s' [agentAlloc]
      (r.1, r.2, task')
  else
    let r := allocLoop task task.resourceRequirements s []
    (r.1, r.2, task)

/-- `TaskScheduler._execute_task`: allocate resources; requeue the task when
allocation fails, otherwise move it into `active_tasks` with status
`ASSIGNED` (the spawned `_run_task` body is modelled separately). -/
def executeTask (sel : AgentSel) (s : SchedulerState)
    (task : ScheduledTask) : SchedulerState :=
  match allocateResources sel s task with
  | (false, s', task') => { s' with taskQueue := s'.taskQueue ++ [task'] }
  | (true, s', task') =>
    let task'' := { task' with
      status := .assigned
      assignedAt := some s'.clock }
    { s' with
      activeTasks := aset s'.activeTasks task''.taskId task''
      clock := s'.clock + 1 }

/-- The collection loop of `TaskScheduler._process_task_queue`: while the
queue is non-empty and fewer than `max_concurrent_tasks` tasks are active,
pop the highest-priority task; gather it if its dependencies are met, and
otherwise push it back and stop (head-of-line blocking). -/
def collectReady : Nat → SchedulerState → List ScheduledTask →
    SchedulerState × List ScheduledTask
  | 0, s, acc => (s, acc)
  | fuel + 1, s, acc =>
    if s.activeTasks.length < maxConcurrentTasks then
      match popMin? s.taskQueue with
      | none => (s, acc)
      | some (task, rest) =>
        let s' := { s with taskQueue := rest }
        if checkDependencies s' task then
          collectReady fuel s' (acc ++ [task])
        else
          ({ s' with taskQueue := s'.taskQueue ++ [task] }, acc)
    else
      (s, acc)

/-- `TaskScheduler._process_task_queue`: collect the ready tasks, then
dispatch each of them via `_execute_task`. -/
def processTaskQueue (sel : AgentSel) (s : SchedulerState) : SchedulerState :=
  let r := collectReady s.taskQueue.length s []
  r.2.foldl (executeTask sel) r.1

/-- The statistics metric selector of `TaskScheduler._update_stats`. -/
inductive StatMetric where
  | executionTime
  | waitTime
deriving DecidableEq, Repr

/-- `TaskScheduler._update_stats`: running-average update.  The divisor is
`stats["tasks_completed"]`; dividing by zero raises `ZeroDivisionError`,
modelled as `none`. -/
def updateStats (s : SchedulerState) (metric : StatMetric) (value : ℚ) :
    Option SchedulerState :=
  let completed := s.statsTasksCompleted
  if completed = 0 then
    none
  else
    match metric with
    | .executionTime =>
      some { s with avgExecutionTimeMinutes :=
        (s.avgExecutionTimeMinutes * ((completed : ℚ) - 1) + value) /
          (completed : ℚ) }
    | .waitTime =>
      some { s with avgWaitTimeMinutes :=
        (s.avgWaitTimeMinutes * ((completed : ℚ) - 1) + value) /
          (completed : ℚ) }

/-- `TaskScheduler._deallocate_task_resources`: deallocate every stored
allocation belonging to the task, then delete them from the store. -/
def deallocTaskResources (s : SchedulerState) (task : ScheduledTask) :
    SchedulerState :=
  let mine := s.resourceAllocations.filter (fun a => a.taskId == task.taskId)
  let s' := mine.foldl deallocateResource s
  { s' with
    resourceAllocations :=
      s'.resourceAllocations.filter (fun a => ¬ a.taskId == task.taskId) }

/-- One `_update_stats` call as `_complete_task` performs it: on a
`ZeroDivisionError` the ghost counter is bumped and the flag is `false`
(the exception aborts the rest of the bookkeeping). -/
def recordStat (s : SchedulerState) (metric : StatMetric) (v : ℚ) :
    SchedulerState × Bool :=
  match updateStats s metric v with
  | none => ({ s with zeroDivErrors := s.zeroDivErrors + 1 }, false)
  | some s' => (s', true)

/-- The statistics tail of `_complete_task`: update the execution-time
average when both timing fields are set (a raised `ZeroDivisionError`
skips the rest), then the wait-time average when its fields are set. -/
def completeStats (s3 : SchedulerState) (t : ScheduledTask) :
    SchedulerState :=
  match t.startedAt, t.completedAt with
  | some st, some ct =>
    let r := recordStat s3 .executionTime (((ct : ℚ) - (st : ℚ)) / 60)
    if r.2 then
      match t.assignedAt, t.startedAt with
      | some at', some st2 =>
        (recordStat r.1 .waitTime (((st2 : ℚ) - (at' : ℚ)) / 60)).1
      | _, _ => r.1
    else r.1
  | _, _ =>
    match t.assignedAt, t.startedAt with
    | some at', some st =>
      (recordStat s3 .waitTime (((st : ℚ) - (at' : ℚ)) / 60)).1
    | _, _ => s3

/-- `TaskScheduler._complete_task`: move the task out of `active_tasks` into
`completed_tasks`, release its allocations, and update the running-average
statistics for execution and wait time. -/
def completeTask (s : SchedulerState) (task : ScheduledTask) :
    SchedulerState :=
  let s3 := deallocTaskResources
    { s with
      activeTasks := adel s.activeTasks task.taskId
      completedTasks := aset s.completedTasks task.taskId task } task
  completeStats s3 task

/-- `TaskScheduler._run_task` with the executor outcome supplied by `exec`
(`true` = the simulated execution returns, `false` = it raises): on success
mark `COMPLETED`; on failure mark `FAILED`, and while `retry_count <
max_retries` increment the retry counter and push the task back onto the
queue.  The `finally` block always runs `_complete_task`. -/
def runTask (exec : ScheduledTask → Bool) (s : SchedulerState)
    (task : ScheduledTask) : SchedulerState :=
  let t1 := { task with status := .executing, startedAt := some s.clock }
  let s1 := { s with clock := s.clock + 1 }
  if exec t1 then
    let t2 := { t1 with status := .completed, completedAt := some s1.clock }
    let s2 := { s1 with
      clock := s1.clock + 1
      statsTasksCompleted := s1.statsTasksCompleted + 1 }
    completeTask s2 t2
  else
    let t2 := { t1 with
      status := .failed
      errorMessage := some "executor raised"
      completedAt := some s1.clock }
    let s2 := { s1 with
      clock := s1.clock + 1
      statsTasksFailed := s1.statsTasksFailed + 1 }
    if t2.retryCount < t2.maxRetries then
      let t3 := { t2 with
        retryCount := t2.retryCount + 1
        status := .queued
        scheduledFor := some (s2.clock + t2.retryDelayMinutes) }
      let s3 := { s2 with taskQueue := s2.taskQueue ++ [t3] }
      completeTask s3 t3
    else
      completeTask s2 t2

/-- Dispatch-and-run of one ready task: `_execute_task` immediately followed
by the spawned `_run_task` body (the sequential rendering of
`asyncio.create_task(self._run_task(task))`). -/
def executeRun (sel : AgentSel) (exec : ScheduledTask → Bool)
    (s : SchedulerState) (task : ScheduledTask) : SchedulerState :=
  match allocateResources sel s task with
  | (false, s', task') => { s' with taskQueue := s'.taskQueue ++ [task'] }
  | (true, s', task') =>
    let task'' := { task' with
      status := .assigned
      assignedAt := some s'.clock }
    let s'' := { s' with
      activeTasks := aset s'.activeTasks task''.taskId task''
      clock := s'.clock + 1 }
    runTask exec s'' task''

/-- One scheduler tick in which every dispatched task also runs its
(possibly failing) execution body to completion. -/
def dispatchStep (sel : AgentSel) (exec : ScheduledTask → Bool)
    (s : SchedulerState) : SchedulerState :=
  let r := collectReady s.taskQueue.length s []
  r.2.foldl (executeRun sel exec) r.1

end Sched

namespace Wf

/-- `WorkflowState` from `workflow_engine.py`. -/
inductive WorkflowState where
  | initialized
  | planning
  | executing
  | monitoring
  | validating
  | completing
  | completed
  | failed
  | paused
deriving DecidableEq, Repr

/-- `WorkflowStep` dataclass (agent types and capabilities kept as names;
the `Any`-typed results payload is outside the embedded fragment). -/
structure WorkflowStep where
  stepId : String
  stepName : String
  requiredAgentType : String
  requiredCapabilities : List String
  inputRequirements : List String
  outputDeliverables : List String
  estimatedDurationMinutes : Nat
  dependencies : List String := []
  isCompleted : Bool := false
  assignedAgentId : Option String := none
deriving DecidableEq, Repr

/-- `ResearchWorkflowTemplate` dataclass. -/
structure ResearchWorkflowTemplate where
  templateId : String
  templateName : String
  steps : List WorkflowStep
  successCriteria : List String
  failureConditions : List String
deriving DecidableEq, Repr

/-- `AutomatedResearchCycle` dataclass (`step_results` payloads are
`Any`-typed and outside the embedded fragment; the success-criteria
evaluation over them is abstracted as a predicate parameter below). -/
structure AutomatedResearchCycle where
  cycleId : String
  projectId : String
  template : ResearchWorkflowTemplate
  state : WorkflowState
  currentStepIndex : Nat
  progressPercentage : ℚ := 0
  assignedAgents : List (String × String) := []
  safetyStatus : String := "safe"
  qualityScore : ℚ := 0
  interventionRequired : Bool := false
deriving DecidableEq, Repr

/-- `WorkflowEngine.quality_threshold` default. -/
def qualityThreshold : ℚ := 7 / 10

/-- `WorkflowEngine._check_step_dependencies`: every dependency must name a
step of the template that is marked completed. -/
def checkStepDependencies (c : AutomatedResearchCycle)
    (step : WorkflowStep) : Bool :=
  step.dependencies.all fun dep =>
    match c.template.steps.find? (fun s => s.stepId == dep) with
    | some depStep => depStep.isCompleted
    | none => false

/-- The loop body of `WorkflowEngine._execute_workflow_steps`, walking the
template's steps from index `i` (the loop always enumerates from 0): set
`current_step_index`, check dependencies, run the step (outcome supplied by
`stepExec`), mark it completed and update the progress percentage.  The
returned list is the ghost trace of indices on which the step body was
actually started. -/
def execSteps (stepExec : Nat → WorkflowStep → Bool) :
    Nat → Nat → AutomatedResearchCycle → List Nat →
    AutomatedResearchCycle × Bool × List Nat
  | 0, _, c, trace => (c, true, trace)
  | fuel + 1, i, c, trace =>
    match c.template.steps[i]? with
    | none => (c, true, trace)
    | some step =>
      let c1 := { c with currentStepIndex := i }
      if checkStepDependencies c1 step then
        if stepExec i step then
          let step' := { step with isCompleted := true }
          let c2 := { c1 with
            template :=
              { c1.template with steps := c1.template.steps.set i step' }
            progressPercentage :=
              ((i : ℚ) + 1) / (c1.template.steps.length : ℚ) * 100 }
          execSteps stepExec fuel (i + 1) c2 (trace ++ [i])
        else
          (c1, false, trace ++ [i])
      else
        (c1, false, trace)

/-- `WorkflowEngine._execute_workflow_steps` (enumeration starts at 0). -/
def executeWorkflowSteps (stepExec : Nat → WorkflowStep → Bool)
    (c : AutomatedResearchCycle) :
    AutomatedResearchCycle × Bool × List Nat :=
  execSteps stepExec c.template.steps.length 0 c []

/-- `WorkflowEngine._validate_workflow_results`: count the success criteria
satisfied by the evaluator `check`, set
`quality_score = satisfied / total` (`0` when the template declares no
criteria), and pass iff the score reaches the quality threshold. -/
def validateWorkflowResults (check : String → Bool)
    (c : AutomatedResearchCycle) : AutomatedResearchCycle × Bool :=
  let totalCriteria := c.template.successCriteria.length
  let successCount := (c.template.successCriteria.filter check).length
  let score : ℚ :=
    if 0 < totalCriteria then (successCount : ℚ) / (totalCriteria : ℚ) else 0
  let c' := { c with qualityScore := score }
  (c', decide (qualityThreshold ≤ score))

/-- `WorkflowEngine._execute_research_cycle`: planning (agent resolution by
the external registry, abstracted as `plan`), execution, validation and
completion; any phase failure marks the cycle `FAILED`.  Alongside the final
cycle it returns the ghost trace of executed step indices. -/
def executeResearchCycle
    (plan : AutomatedResearchCycle → Option (List (String × String)))
    (stepExec : Nat → WorkflowStep → Bool) (check : String → Bool)
    (c : AutomatedResearchCycle) : AutomatedResearchCycle × List Nat :=
  let c0 := { c with state := .planning }
  match plan c0 with
  | none => ({ c0 with state := .failed }, [])
  | some assignments =>
    let c1 := { c0 with assignedAgents := assignments, state := .executing }
    let r := executeWorkflowSteps stepExec c1
    if r.2.1 then
      let c2 := { r.1 with state := .validating }
      let v := validateWorkflowResults check c2
      if v.2 then
        let c3 := { v.1 with state := .completing }
        ({ c3 with state := .completed }, r.2.2)
      else
        ({ v.1 with state := .failed }, r.2.2)
    else
      ({ r.1 with state := .failed }, r.2.2)

/-- The `WorkflowEngine`'s cycle store. -/
structure WorkflowEngine where
  activeCycles : List (String × AutomatedResearchCycle) := []
deriving DecidableEq, Repr

/-- `WorkflowEngine.pause_cycle`: refuse when the cycle is unknown or in a
terminal (`COMPLETED`/`FAILED`) state, otherwise set `PAUSED`. -/
def pauseCycle (e : WorkflowEngine) (cycleId : String) :
    WorkflowEngine × Bool :=
  match e.activeCycles.lookup cycleId with
  | none => (e, false)
  | some c =>
    if c.state = .completed ∨ c.state = .failed then
      (e, false)
    else
      let c' := { c with state := WorkflowState.paused }
      ({ e with activeCycles := aset e.activeCycles cycleId c' }, true)

/-- `WorkflowEngine.resume_cycle`: refuse unless the cycle is `PAUSED`;
otherwise set `EXECUTING` and spawn `_execute_research_cycle` on it (the
spawned body is `executeResearchCycle`, applied separately). -/
def resumeCycle (e : WorkflowEngine) (cycleId : String) :
    WorkflowEngine × Bool :=
  match e.activeCycles.lookup cycleId with
  | none => (e, false)
  | some c =>
    if c.state ≠ .paused then
      (e, false)
    else
      let c' := { c with state := WorkflowState.executing }
      ({ e with activeCycles := aset e.activeCycles cycleId c' }, true)

end Wf

namespace Safety

/-- `RiskLevel` from `oversight_monitor.py`. -/
inductive RiskLevel where
  | minimal
  | low
  | moderate
  | high
  | critical
deriving DecidableEq, Repr

/-- `SafetyStatus` from `oversight_monitor.py`. -/
inductive SafetyStatus where
  | safe
  | warning
  | critical
  | emergency
deriving DecidableEq, Repr

/-- `ViolationType` from `oversight_monitor.py`. -/
inductive ViolationType where
  | resourceLimit
  | timeLimit
  | agentMalfunction
  | dataCorruption
  | protocolViolation
  | ethicalViolation
  | securityBreach
  | systemOverload
deriving DecidableEq, Repr

/-- `SafetyViolation` dataclass (`violation_id` is the uuid counter value). -/
structure SafetyViolation where
  violationId : Nat
  violationType : ViolationType
  riskLevel : RiskLevel
  source : String
  description : String
  autoResolved : Bool := false
  resolutionActions : List String := []
deriving DecidableEq, Repr

/-- `SafetyRule` dataclass. -/
structure SafetyRule where
  ruleId : String
  ruleName : String
  ruleType : String
  action : String
  enabled : Bool := true
deriving DecidableEq, Repr

/-- `EmergencyProtocol` dataclass. -/
structure EmergencyProtocol where
  protocolId : String
  protocolName : String
  triggerConditions : List String
  emergencyActions : List String
  notificationTargets : List String
  autoExecute : Bool := true
deriving DecidableEq, Repr

/-- The default rule set built by `_initialize_safety_rules`, in insertion
order of the `safety_rules` dict. -/
def safetyRules : List SafetyRule :=
  [ { ruleId := "cpu_usage_limit", ruleName := "CPU Usage Limit",
      ruleType := "resource", action := "warn" },
    { ruleId := "memory_usage_limit", ruleName := "Memory Usage Limit",
      ruleType := "resource", action := "emergency" },
    { ruleId := "step_timeout", ruleName := "Workflow Step Timeout",
      ruleType := "time", action := "pause" },
    { ruleId := "cycle_timeout", ruleName := "Research Cycle Timeout",
      ruleType := "time", action := "stop" },
    { ruleId := "agent_response_timeout", ruleName := "Agent Response Timeout",
      ruleType := "agent", action := "warn" },
    { ruleId := "safety_protocol_compliance",
      ruleName := "Safety Protocol Compliance",
      ruleType := "protocol", action := "stop" } ]

/-- The default protocols built by `_initialize_emergency_protocols`, in
insertion order of the `emergency_protocols` dict. -/
def emergencyProtocols : List EmergencyProtocol :=
  [ { protocolId := "system_overload",
      protocolName := "System Overload Emergency Response",
      triggerConditions :=
        ["high_cpu_usage", "high_memory_usage", "resource_exhaustion"],
      emergencyActions :=
        [ "pause_all_non_critical_cycles", "notify_administrators",
          "initiate_graceful_shutdown", "save_current_state" ],
      notificationTargets :=
        ["admin@research-institute.ai", "safety@research-institute.ai"] },
    { protocolId := "agent_malfunction",
      protocolName := "Agent Malfunction Response",
      triggerConditions :=
        [ "agent_unresponsive", "agent_error_cascade",
          "agent_safety_violation" ],
      emergencyActions :=
        [ "isolate_malfunctioning_agent", "pause_affected_workflows",
          "reassign_critical_tasks", "initiate_agent_recovery" ],
      notificationTargets := ["agent-team@research-institute.ai"] },
    { protocolId := "data_integrity",
      protocolName := "Data Integrity Emergency Response",
      triggerConditions :=
        ["data_corruption_detected", "security_breach", "unauthorized_access"],
      emergencyActions :=
        [ "stop_all_data_operations", "backup_current_state",
          "isolate_affected_systems", "initiate_forensic_analysis" ],
      notificationTargets :=
        ["security@research-institute.ai", "data-team@research-institute.ai"],
      autoExecute := false } ]

/-- The `resource_thresholds` table ("cpu_percent" and "memory_percent";
disk and network thresholds are never consulted by the violation scan). -/
def cpuThreshold : ℚ := 85
def memoryThreshold : ℚ := 80

/-- Observable safety events (`_trigger_safety_event` invocations). -/
inductive SafetyEvent where
  | violationDetected (violationId : Nat)
  | emergencyTriggered (violationId : Nat)
  | safetyStatusChanged (oldStatus newStatus : SafetyStatus)
deriving DecidableEq, Repr

/-- The mutable state of a `SafetyMonitor`.  Monitored cycles are reduced to
the one field the monitor ever mutates — their workflow state.  Monitored
projects are outside the embedded fragment (no claim concerns them and the
scenarios under study use the `system_monitor` source, which matches neither
the cycle nor the project branch of the response handlers). -/
structure MonitorState where
  monitoredCycles : List (String × Wf.WorkflowState) := []
  activeViolations : List SafetyViolation := []
  violationHistory : List SafetyViolation := []
  systemSafetyStatus : SafetyStatus := .safe
  statsViolationsDetected : Nat := 0
  statsEmergenciesTriggered : Nat := 0
  statsAutoResolutions : Nat := 0
  events : List SafetyEvent := []
  notifications : List (String × String) := []
  nextId : Nat := 0
deriving DecidableEq, Repr

/-- The `type_mapping` of `_violation_matches_rule` (`dict.get` returns
`None` for the unmapped violation types). -/
def violationRuleClass : ViolationType → Option String
  | .resourceLimit => some "resource"
  | .timeLimit => some "time"
  | .agentMalfunction => some "agent"
  | .protocolViolation => some "protocol"
  | .systemOverload => some "resource"
  | _ => none

/-- `SafetyMonitor._violation_matches_rule`. -/
def violationMatchesRule (v : SafetyViolation) (rule : SafetyRule) : Bool :=
  violationRuleClass v.violationType == some rule.ruleType

/-- The `trigger_mapping` of `_violation_triggers_protocol`. -/
def violationTriggerTags : ViolationType → List String
  | .systemOverload =>
    ["high_cpu_usage", "high_memory_usage", "resource_exhaustion"]
  | .agentMalfunction =>
    ["agent_unresponsive", "agent_error_cascade", "agent_safety_violation"]
  | .dataCorruption => ["data_corruption_detected"]
  | .securityBreach => ["security_breach", "unauthorized_access"]
  | _ => []

/-- `SafetyMonitor._violation_triggers_protocol`. -/
def violationTriggersProtocol (v : SafetyViolation)
    (p : EmergencyProtocol) : Bool :=
  (violationTriggerTags v.violationType).any
    (fun tag => p.triggerConditions.contains tag)

/-- Write a mutated violation object back through every alias (the active
set and the history hold the same Python object). -/
def updateViolation (s : MonitorState) (v : SafetyViolation) : MonitorState :=
  { s with
    activeViolations := s.activeViolations.map
      (fun w => if w.violationId = v.violationId then v else w)
    violationHistory := s.violationHistory.map
      (fun w => if w.violationId = v.violationId then v else w) }

/-- `SafetyMonitor._pause_affected_operations`. -/
def pauseAffectedOperations (s : MonitorState) (v : SafetyViolation) :
    MonitorState × List String :=
  if strContainsSub v.source "cycle_" then
    let cycleId := strRemoveAll v.source "cycle_"
    match s.monitoredCycles.lookup cycleId with
    | some _ =>
      let cycles := aset s.monitoredCycles cycleId Wf.WorkflowState.paused
      ({ s with monitoredCycles := cycles }, ["paused_cycle_" ++ cycleId])
    | none => (s, [])
  else
    (s, [])

/-- `SafetyMonitor._stop_affected_operations`. -/
def stopAffectedOperations (s : MonitorState) (v : SafetyViolation) :
    MonitorState × List String :=
  if strContainsSub v.source "cycle_" then
    let cycleId := strRemoveAll v.source "cycle_"
    match s.monitoredCycles.lookup cycleId with
    | some _ =>
      let cycles := aset s.monitoredCycles cycleId Wf.WorkflowState.failed
      ({ s with monitoredCycles := cycles }, ["stopped_cycle_" ++ cycleId])
    | none => (s, [])
  else
    (s, [])

/-- `SafetyMonitor._execute_emergency_action`: of the listed actions only
`pause_all_non_critical_cycles` mutates embedded state (the others log or
simulate). -/
def executeEmergencyAction (s : MonitorState) (action : String) :
    MonitorState :=
  if action = "pause_all_non_critical_cycles" then
    let cycles := s.monitoredCycles.map fun p =>
      if p.2 = Wf.WorkflowState.executing then (p.1, Wf.WorkflowState.paused)
      else p
    { s with monitoredCycles := cycles }
  else
    s

/-- `SafetyMonitor._execute_emergency_protocol`: run the ordered action
list, then issue one notification per target. -/
def executeEmergencyProtocol (s : MonitorState) (p : EmergencyProtocol) :
    MonitorState :=
  let s1 := p.emergencyActions.foldl executeEmergencyAction s
  let sent := p.notificationTargets.map fun target => (target, p.protocolId)
  { s1 with notifications := s1.notifications ++ sent }

/-- `SafetyMonitor._trigger_emergency_protocol`: execute every applicable
auto-execute protocol, force the system status to `EMERGENCY` and fire the
`emergency_triggered` event. -/
def triggerEmergencyProtocol (s : MonitorState) (v : SafetyViolation) :
    MonitorState × List String :=
  let applicable := emergencyProtocols.filter (violationTriggersProtocol v)
  let r := applicable.foldl
    (fun (acc : MonitorState × List String) p =>
      if p.autoExecute then
        let s' := executeEmergencyProtocol acc.1 p
        ({ s' with statsEmergenciesTriggered :=
            s'.statsEmergenciesTriggered + 1 },
         acc.2 ++ ["executed_emergency_protocol_" ++ p.protocolId])
      else acc)
    (s, [])
  let s2 := { r.1 with systemSafetyStatus := SafetyStatus.emergency }
  ({ s2 with events := s2.events ++ [.emergencyTriggered v.violationId] },
   r.2)

/-- `SafetyMonitor._can_auto_resolve`: only `TIME_LIMIT` and
`RESOURCE_LIMIT` violations auto-resolve. -/
def canAutoResolve (v : SafetyViolation) : Bool :=
  v.violationType = ViolationType.timeLimit ∨
    v.violationType = ViolationType.resourceLimit

/-- `SafetyMonitor._auto_resolve_violation`. -/
def autoResolveViolation (s : MonitorState) (v : SafetyViolation) :
    MonitorState :=
  let v' := { v with autoResolved := true }
  let s1 := updateViolation s v'
  { s1 with
    activeViolations := s1.activeViolations.filter
      (fun w => w.violationId ≠ v'.violationId)
    statsAutoResolutions := s1.statsAutoResolutions + 1 }

/-- `SafetyMonitor._handle_violation`: match the violation against the
*first* rule of the same class, perform that rule's action, record the
actions taken on the violation, and auto-resolve when eligible. -/
def handleViolation (s : MonitorState) (v : SafetyViolation) : MonitorState :=
  match safetyRules.find? (violationMatchesRule v) with
  | none => s
  | some rule =>
    let r : MonitorState × List String :=
      if rule.action = "warn" then (s, ["warning_issued"])
      else if rule.action = "pause" then pauseAffectedOperations s v
      else if rule.action = "stop" then stopAffectedOperations s v
      else if rule.action = "emergency" then triggerEmergencyProtocol s v
      else (s, [])
    let v' := { v with resolutionActions := r.2 }
    let s1 := updateViolation r.1 v'
    if canAutoResolve v' then autoResolveViolation s1 v' else s1

/-- `SafetyMonitor._report_violation`: create the violation, register it as
active and in the history, run the automated response, and fire the
`violation_detected` event. -/
def reportViolation (s : MonitorState) (vt : ViolationType) (rl : RiskLevel)
    (source description : String) : MonitorState :=
  let v : SafetyViolation :=
    { violationId := s.nextId, violationType := vt, riskLevel := rl,
      source := source, description := description }
  let s1 := { s with
    nextId := s.nextId + 1
    activeViolations := s.activeViolations ++ [v]
    violationHistory := s.violationHistory ++ [v]
    statsViolationsDetected := s.statsViolationsDetected + 1 }
  let s2 := handleViolation s1 v
  { s2 with events := s2.events ++ [.violationDetected v.violationId] }

/-- A system-metrics reading consumed by `_check_system_safety`
(`dict.get(..., 0)` supplies `0` for absent keys). -/
structure SystemReading where
  cpuPercent : ℚ := 0
  memoryPercent : ℚ := 0
deriving DecidableEq, Repr

/-- `SafetyMonitor._check_system_safety` on a given reading: CPU above 85
reports `SYSTEM_OVERLOAD` at `HIGH` (above 95) or `MODERATE`; memory above
80 reports `SYSTEM_OVERLOAD` at `CRITICAL` (above 95) or `HIGH`. -/
def checkSystemSafety (s : MonitorState) (reading : SystemReading) :
    MonitorState :=
  let s1 :=
    if reading.cpuPercent > cpuThreshold then
      reportViolation s .systemOverload
        (if reading.cpuPercent > 95 then .high else .moderate)
        "system_monitor" "High CPU usage detected"
    else s
  if reading.memoryPercent > memoryThreshold then
    reportViolation s1 .systemOverload
      (if reading.memoryPercent > 95 then .critical else .high)
      "system_monitor" "High memory usage detected"
  else s1

/-- The `risk_mapping` of `_assess_system_risk`. -/
def riskWeight : RiskLevel → ℚ
  | .minimal => 1 / 10
  | .low => 3 / 10
  | .moderate => 1 / 2
  | .high => 4 / 5
  | .critical => 1

/-- The status computed by `_assess_system_risk` from the active
violations: `SAFE` when none are active, otherwise thresholds on the
*maximum* risk weight. -/
def assessedStatus (violations : List SafetyViolation) : SafetyStatus :=
  match violations.map (fun v => riskWeight v.riskLevel) with
  | [] => .safe
  | x :: xs =>
    let maxRisk := xs.foldl max x
    if maxRisk ≥ 8 / 10 then .emergency
    else if maxRisk ≥ 6 / 10 then .critical
    else if maxRisk ≥ 4 / 10 then .warning
    else .safe

/-- `SafetyMonitor._assess_system_risk`: recompute the status from active
violations and fire `safety_status_changed` only when it changes. -/
def assessSystemRisk (s : MonitorState) : MonitorState :=
  let newStatus := assessedStatus s.activeViolations
  if newStatus ≠ s.systemSafetyStatus then
    { s with
      systemSafetyStatus := newStatus
      events := s.events ++
        [.safetyStatusChanged s.systemSafetyStatus newStatus] }
  else s

end Safety

/-! ## Claim C4: priority ordering with FIFO tie-break -/

namespace Sched

/-- `taskLt` is irreflexive. -/
theorem taskLt_irrefl (a : ScheduledTask) : taskLt a a = false := by
  rw [taskLt_false_iff]
  omega

/-- Scenario task of spec §8 example 1: `LOW` priority, created first. -/
def lowTask : ScheduledTask :=
  { taskId := "task_low", taskType := "generic", priority := .low,
    createdAt := 0 }

/-- Scenario task of spec §8 example 1: `CRITICAL` priority, created second. -/
def criticalTask : ScheduledTask :=
  { taskId := "task_critical", taskType := "generic", priority := .critical,
    createdAt := 1 }

/-- Scenario task of spec §8 example 1: `MEDIUM` priority, created third. -/
def mediumTask : ScheduledTask :=
  { taskId := "task_medium", taskType := "generic", priority := .medium,
    createdAt := 2 }

end Sched

open Sched in
/-- C4: in the pop order of the scheduler's priority queue, a task that is
strictly smaller in the `(priority value, created_at)` lexicographic order —
lower priority value, or equal priority and earlier creation — is popped
strictly before the larger one (every occurrence of the smaller precedes
every occurrence of the larger), and the three tasks of the spec scenario,
scheduled with priorities LOW, CRITICAL, MEDIUM in that creation order, are
dispatched in the order CRITICAL, MEDIUM, LOW. -/
theorem c4_priority_fifo_dispatch :
    (∀ (q : List ScheduledTask) (t1 t2 : ScheduledTask) (i j : Nat)
      (hi : i < (drainAll q).length) (hj : j < (drainAll q).length),
      (drainAll q).get ⟨i, hi⟩ = t1 → (drainAll q).get ⟨j, hj⟩ = t2 →
      taskLt t1 t2 = true → i < j) ∧
    drainAll [lowTask, criticalTask, mediumTask] =
      [criticalTask, mediumTask, lowTask] := by
  constructor
  · intro q t1 t2 i j hi hj h1 h2 hlt
    have hpw := drain_pairwise q.length q
    rw [List.pairwise_iff_get] at hpw
    rcases Nat.lt_trichotomy i j with h | h | h
    · exact h
    · exfalso
      subst h
      rw [h1] at h2
      subst h2
      rw [taskLt_irrefl] at hlt
      exact Bool.false_ne_true hlt
    · exfalso
      have hthis := hpw ⟨j, hj⟩ ⟨i, hi⟩ h
      simp only [drainAll] at h1 h2
      rw [h1, h2] at hthis
      rw [hthis] at hlt
      exact Bool.false_ne_true hlt
  · rfl

open Sched in
/-- Witness for C4 at the spec scenario: `CRITICAL` is strictly below
`MEDIUM` in the queue order, and is indeed popped earlier. -/
theorem c4_priority_fifo_dispatch_witness :
    taskLt criticalTask mediumTask = true ∧ (0 : Nat) < 1 :=
  ⟨by decide,
    c4_priority_fifo_dispatch.1 [lowTask, criticalTask, mediumTask]
      criticalTask mediumTask 0 1 (by decide) (by decide) (by decide)
      (by decide) (by decide)⟩

/-! ## Claim C1: dependency gating -/

namespace Sched

/-- Core bookkeeping fields (queue, active/completed stores, counters) that
the resource-allocation layer never touches. -/
def coreEq (s1 s2 : SchedulerState) : Prop :=
  s1.taskQueue = s2.taskQueue ∧ s1.activeTasks = s2.activeTasks ∧
    s1.completedTasks = s2.completedTasks ∧
    s1.statsTasksCompleted = s2.statsTasksCompleted ∧
    s1.statsTasksFailed = s2.statsTasksFailed

theorem coreEq_refl (s : SchedulerState) : coreEq s s :=
  ⟨rfl, rfl, rfl, rfl, rfl⟩

theorem coreEq_trans {s1 s2 s3 : SchedulerState} (h1 : coreEq s1 s2)
    (h2 : coreEq s2 s3) : coreEq s1 s3 :=
  ⟨h1.1.trans h2.1, h1.2.1.trans h2.2.1, h1.2.2.1.trans h2.2.2.1,
    h1.2.2.2.1.trans h2.2.2.2.1, h1.2.2.2.2.trans h2.2.2.2.2⟩

theorem deallocateResource_coreEq (s : SchedulerState)
    (a : ResourceAllocation) : coreEq (deallocateResource s a) s := by
  unfold deallocateResource
  split <;> exact ⟨rfl, rfl, rfl, rfl, rfl⟩

theorem foldl_dealloc_coreEq (allocs : List ResourceAllocation) :
    ∀ s : SchedulerState, coreEq (allocs.foldl deallocateResource s) s := by
  induction allocs with
  | nil => intro s; exact coreEq_refl s
  | cons a as ih =>
    intro s
    exact coreEq_trans (ih (deallocateResource s a))
      (deallocateResource_coreEq s a)

theorem allocateResource_coreEq {s : SchedulerState}
    {req : ResourceRequirement} {tid : String} {a : ResourceAllocation}
    {s' : SchedulerState} (h : allocateResource s req tid = some (a, s')) :
    coreEq s' s ∧ s'.resourceAllocations = s.resourceAllocations := by
  simp only [allocateResource] at h
  by_cases hg : s.resourceUsage req.resourceType + req.amount >
      resourceLimits req.resourceType
  · rw [if_pos hg] at h
    exact Option.noConfusion h
  · rw [if_neg hg] at h
    simp only [Option.some.injEq, Prod.mk.injEq] at h
    obtain ⟨-, hs⟩ := h
    subst hs
    exact ⟨⟨rfl, rfl, rfl, rfl, rfl⟩, rfl⟩

theorem allocLoop_coreEq (t : ScheduledTask)
    (reqs : List ResourceRequirement) :
    ∀ (s : SchedulerState) (allocs : List ResourceAllocation),
      coreEq (allocLoop t reqs s allocs).2 s := by
  induction reqs with
  | nil => intro s allocs; exact coreEq_refl _
  | cons req rs ih =>
    intro s allocs
    by_cases hag : req.resourceType = ResourceType.agent
    · simp only [allocLoop, hag, if_true]
      exact ih s allocs
    · simp only [allocLoop, hag, if_false]
      cases halloc : allocateResource s req t.taskId with
      | none => exact foldl_dealloc_coreEq allocs s
      | some pr =>
        obtain ⟨a, s'⟩ := pr
        exact coreEq_trans (ih s' (allocs ++ [a]))
          (allocateResource_coreEq halloc).1

theorem allocateResources_coreEq (sel : AgentSel) (s : SchedulerState)
    (t : ScheduledTask) :
    coreEq (allocateResources sel s t).2.1 s ∧
      (allocateResources sel s t).2.2.taskId = t.taskId ∧
      (allocateResources sel s t).2.2.status = t.status ∧
      (allocateResources sel s t).2.2.dependsOn = t.dependsOn := by
  unfold allocateResources
  split
  · cases hsel : sel s t with
    | none => exact ⟨coreEq_refl s, rfl, rfl, rfl⟩
    | some agentId =>
      refine ⟨?_, rfl, rfl, rfl⟩
      exact coreEq_trans (allocLoop_coreEq _ _ _ _) ⟨rfl, rfl, rfl, rfl, rfl⟩
  · exact ⟨allocLoop_coreEq _ _ _ _, rfl, rfl, rfl⟩

theorem executeTask_spec (sel : AgentSel) (s : SchedulerState)
    (u : ScheduledTask) :
    (executeTask sel s u).completedTasks = s.completedTasks ∧
      (∀ x, x ∈ s.taskQueue → x ∈ (executeTask sel s u).taskQueue) ∧
      (∀ k, k ≠ u.taskId →
        (executeTask sel s u).activeTasks.lookup k =
          s.activeTasks.lookup k) ∧
      (∀ k, (executeTask sel s u).activeTasks.lookup k ≠
          s.activeTasks.lookup k →
        k = u.taskId ∧ ∃ w, (executeTask sel s u).activeTasks.lookup k =
          some w ∧ w.status = TaskStatus.assigned) := by
  have hfr := allocateResources_coreEq sel s u
  rcases hres : allocateResources sel s u with ⟨ok, s2, u2⟩
  rw [hres] at hfr
  obtain ⟨⟨hq, ha, hc, -, -⟩, hid, -, -⟩ := hfr
  cases ok with
  | false =>
    simp only [executeTask, hres]
    refine ⟨hc, ?_, ?_, ?_⟩
    · intro x hx
      rw [← hq] at hx
      exact List.mem_append_left _ hx
    · intro k _
      exact congrArg (fun l => l.lookup k) ha
    · intro k hne
      exact absurd (congrArg (fun l => l.lookup k) ha) hne
  | true =>
    simp only [executeTask, hres]
    refine ⟨hc, ?_, ?_, ?_⟩
    · intro x hx
      rw [← hq] at hx
      exact hx
    · intro k hne
      rw [lookup_aset_ne _ _ _ _ (by rw [hid]; exact hne)]
      exact congrArg (fun l => l.lookup k) ha
    · intro k hne
      by_cases hidu : k = u.taskId
      · subst hidu
        refine ⟨rfl, ?_⟩
        rw [← hid]
        exact ⟨_, lookup_aset_self _ _ _, rfl⟩
      · exfalso
        apply hne
        rw [lookup_aset_ne _ _ _ _ (by rw [hid]; exact hidu)]
        exact congrArg (fun l => l.lookup k) ha

theorem foldl_executeTask_spec (sel : AgentSel)
    (ready : List ScheduledTask) :
    ∀ s : SchedulerState,
      (ready.foldl (executeTask sel) s).completedTasks = s.completedTasks ∧
        (∀ x, x ∈ s.taskQueue →
          x ∈ (ready.foldl (executeTask sel) s).taskQueue) ∧
        (∀ k, (ready.foldl (executeTask sel) s).activeTasks.lookup k ≠
            s.activeTasks.lookup k →
          ∃ u, u ∈ ready ∧ k = u.taskId ∧
            ∃ w, (ready.foldl (executeTask sel) s).activeTasks.lookup k =
              some w ∧ w.status = TaskStatus.assigned) := by
  induction ready with
  | nil =>
    intro s
    exact ⟨rfl, fun x hx => hx, fun k hne => absurd rfl hne⟩
  | cons u us ih =>
    intro s
    have h1 := executeTask_spec sel s u
    have h2 := ih (executeTask sel s u)
    simp only [List.foldl_cons]
    refine ⟨h2.1.trans h1.1, ?_, ?_⟩
    · intro x hx
      exact h2.2.1 x (h1.2.1 x hx)
    · intro k hne
      by_cases hmid :
          (us.foldl (executeTask sel) (executeTask sel s u)).activeTasks.lookup
            k = (executeTask sel s u).activeTasks.lookup k
      · rw [hmid] at hne
        obtain ⟨heq, w, hw, hst⟩ := h1.2.2.2 k hne
        exact ⟨u, List.mem_cons_self _ _, heq, w, hmid.trans hw, hst⟩
      · obtain ⟨v, hv, heq, w, hw, hst⟩ := h2.2.2 k hmid
        exact ⟨v, List.mem_cons_of_mem _ hv, heq, w, hw, hst⟩

theorem checkDependencies_ext (s1 s2 : SchedulerState)
    (hA : s1.activeTasks = s2.activeTasks)
    (hC : s1.completedTasks = s2.completedTasks) (t : ScheduledTask) :
    checkDependencies s1 t = checkDependencies s2 t := by
  unfold checkDependencies
  rw [hA, hC]

theorem popMin?_perm {q : List ScheduledTask} {task : ScheduledTask}
    {rest : List ScheduledTask} (h : popMin? q = some (task, rest)) :
    List.Perm (task :: rest) q := by
  cases q with
  | nil => cases h
  | cons x xs =>
    simp only [popMin?, Option.some.injEq] at h
    have hp := selectMin_perm x xs
    rw [h] at hp
    exact hp

theorem collectReady_spec (fuel : Nat) :
    ∀ (s : SchedulerState) (acc : List ScheduledTask),
      (collectReady fuel s acc).1.activeTasks = s.activeTasks ∧
        (collectReady fuel s acc).1.completedTasks = s.completedTasks ∧
        (∀ u ∈ (collectReady fuel s acc).2,
          u ∈ acc ∨ (u ∈ s.taskQueue ∧ checkDependencies s u = true)) ∧
        (∀ t ∈ s.taskQueue, checkDependencies s t = false →
          t ∈ (collectReady fuel s acc).1.taskQueue) := by
  induction fuel with
  | zero =>
    intro s acc
    exact ⟨rfl, rfl, fun u hu => Or.inl hu, fun t ht _ => ht⟩
  | succ n ih =>
    intro s acc
    by_cases hcap : s.activeTasks.length < maxConcurrentTasks
    · simp only [collectReady, hcap, if_true]
      cases hpop : popMin? s.taskQueue with
      | none => exact ⟨rfl, rfl, fun u hu => Or.inl hu, fun t ht _ => ht⟩
      | some pr =>
        obtain ⟨task, rest⟩ := pr
        have hperm := popMin?_perm hpop
        have hdep :
            checkDependencies { s with taskQueue := rest } task =
              checkDependencies s task :=
          checkDependencies_ext { s with taskQueue := rest } s rfl rfl task
        cases hck : checkDependencies { s with taskQueue := rest } task with
        | true =>
          simp only [hck, if_true]
          have hih := ih { s with taskQueue := rest } (acc ++ [task])
          refine ⟨hih.1, hih.2.1, ?_, ?_⟩
          · intro u hu
            rcases hih.2.2.1 u hu with hacc | ⟨hmem, hdeps⟩
            · rcases List.mem_append.mp hacc with h1 | h1
              · exact Or.inl h1
              · have : u = task := by simpa using h1
                subst this
                refine Or.inr ⟨hperm.mem_iff.mp (List.mem_cons_self _ _), ?_⟩
                rw [← hdep]
                exact hck
            · refine Or.inr ⟨hperm.mem_iff.mp (List.mem_cons_of_mem _ hmem),
                ?_⟩
              have hext := checkDependencies_ext
                { s with taskQueue := rest } s rfl rfl u
              rw [hext] at hdeps
              exact hdeps
          · intro t ht hfalse
            have htne : t ≠ task := by
              intro he
              subst he
              rw [hdep] at hck
              rw [hfalse] at hck
              exact Bool.false_ne_true hck
            have htr : t ∈ rest := by
              rcases List.mem_cons.mp (hperm.symm.mem_iff.mp ht) with h1 | h1
              · exact absurd h1 htne
              · exact h1
            refine hih.2.2.2 t htr ?_
            rw [checkDependencies_ext { s with taskQueue := rest } s rfl rfl t]
            exact hfalse
        | false =>
          simp only [hck, if_false]
          refine ⟨rfl, rfl, fun u hu => Or.inl hu, ?_⟩
          intro t ht _
          rcases List.mem_cons.mp (hperm.symm.mem_iff.mp ht) with h1 | h1
          · subst h1
            exact List.mem_append_right _ (List.mem_cons_self _ _)
          · exact List.mem_append_left _ h1
    · have hres : collectReady (n + 1) s acc = (s, acc) := by
        simp only [collectReady, hcap, if_false]
      rw [hres]
      exact ⟨rfl, rfl, fun u hu => Or.inl hu, fun t ht _ => ht⟩

/-- A dependency that terminated as `FAILED` and sits in the completed
store. -/
def dTask : ScheduledTask :=
  { taskId := "d", taskType := "generic", priority := .medium,
    createdAt := 0, status := .failed }

/-- A task depending on `dTask`. -/
def tTask : ScheduledTask :=
  { taskId := "t", taskType := "generic", priority := .medium,
    createdAt := 1, dependsOn := ["d"] }

/-- The blocked scenario: the dependent task is queued but its dependency is
known to no store. -/
def blockedState : SchedulerState :=
  { taskQueue := [tTask] }

/-- Provider selection that never finds an agent (the tasks in the scenarios
declare no agent or capability requirements, so it is never consulted). -/
def noSel : AgentSel := fun _ _ => none

/-- Scheduler state with the failed dependency in `completed_tasks` and the
dependent task queued. -/
def c1State : SchedulerState :=
  { taskQueue := [tTask], completedTasks := [("d", dTask)] }

end Sched

open Sched in
/-- Counterexample to C1 as stated: the dependency `d` of queued task `t`
has status `FAILED` (not `COMPLETED`), yet one pass of the dispatch loop
transitions `t` out of `QUEUED` into `active_tasks` with status `ASSIGNED`,
because `_check_dependencies` only tests membership of the dependency k in
the `completed_tasks` store, which also holds failed tasks. -/
theorem c1_counterexample :
    dTask.status = TaskStatus.failed ∧
      c1State.completedTasks.lookup "d" = some dTask ∧
      tTask.dependsOn = ["d"] ∧ tTask.status = TaskStatus.queued ∧
      c1State.taskQueue = [tTask] ∧
      ((processTaskQueue noSel c1State).activeTasks.lookup "t").map
        (fun w => w.status) = some TaskStatus.assigned ∧
      (processTaskQueue noSel c1State).taskQueue = [] := by
  decide

open Sched in
/-- C1 (amended): the dispatch loop moves a task out of `QUEUED` only when
every k in its `depends_on` is *present in the `completed_tasks` store*
(which records every task that passed through completion bookkeeping,
whatever its final status) or is an active task with status `COMPLETED`;
a queued task failing that check survives the pass in the task queue, and
every task newly appearing among the active tasks passed the check and
enters with status `ASSIGNED`. -/
theorem c1_amended_dependency_gating (sel : AgentSel) (s : SchedulerState) :
    (∀ t, t ∈ s.taskQueue → checkDependencies s t = false →
      t ∈ (processTaskQueue sel s).taskQueue) ∧
    (∀ k, (processTaskQueue sel s).activeTasks.lookup k ≠
        s.activeTasks.lookup k →
      ∃ u, u ∈ s.taskQueue ∧ k = u.taskId ∧
        checkDependencies s u = true ∧
        ∃ w, (processTaskQueue sel s).activeTasks.lookup k = some w ∧
          w.status = TaskStatus.assigned) := by
  have hcr := collectReady_spec s.taskQueue.length s []
  have hfo := foldl_executeTask_spec sel
    (collectReady s.taskQueue.length s []).2
    (collectReady s.taskQueue.length s []).1
  constructor
  · intro t ht hf
    exact hfo.2.1 t (hcr.2.2.2 t ht hf)
  · intro k hne
    have hne' : (processTaskQueue sel s).activeTasks.lookup k ≠
        (collectReady s.taskQueue.length s []).1.activeTasks.lookup k := by
      rw [hcr.1]
      exact hne
    obtain ⟨u, hu, hid, w, hw, hst⟩ := hfo.2.2 k hne'
    rcases hcr.2.2.1 u hu with hemp | ⟨hmem, hdeps⟩
    · cases hemp
    · exact ⟨u, hmem, hid, hdeps, w, hw, hst⟩

open Sched in
/-- Witness for the amended C1: a queued task whose dependency is in no
store fails the check and stays in the queue after a dispatch pass. -/
theorem c1_amended_dependency_gating_witness :
    tTask ∈ (processTaskQueue noSel blockedState).taskQueue :=
  (c1_amended_dependency_gating noSel blockedState).1 tTask
    (List.mem_cons_self _ _) (by decide)

/-! ## Claim C9: rollback and requeue on partial allocation failure -/

namespace Sched

theorem deallocateResource_allocStore (s : SchedulerState)
    (a : ResourceAllocation) :
    (deallocateResource s a).resourceAllocations = s.resourceAllocations := by
  unfold deallocateResource
  split <;> rfl

theorem foldl_dealloc_allocStore (allocs : List ResourceAllocation) :
    ∀ s : SchedulerState,
      (allocs.foldl deallocateResource s).resourceAllocations =
        s.resourceAllocations := by
  induction allocs with
  | nil => intro s; rfl
  | cons a as ih =>
    intro s
    exact (ih _).trans (deallocateResource_allocStore s a)

theorem deallocateResource_wl_nonagent {a : ResourceAllocation}
    (hna : a.resourceType ≠ ResourceType.agent) (s : SchedulerState) :
    (deallocateResource s a).agentWorkloads = s.agentWorkloads := by
  unfold deallocateResource
  rw [if_neg hna]

theorem deallocateResource_usage_agent {a : ResourceAllocation}
    (hag : a.resourceType = ResourceType.agent) (s : SchedulerState) :
    (deallocateResource s a).resourceUsage = s.resourceUsage := by
  unfold deallocateResource
  rw [if_pos hag]

theorem deallocateResource_usage_nonagent {a : ResourceAllocation}
    (hna : a.resourceType ≠ ResourceType.agent) (s : SchedulerState)
    (r : ResourceType) :
    (deallocateResource s a).resourceUsage r =
      if r = a.resourceType then s.resourceUsage r - a.allocatedAmount
      else s.resourceUsage r := by
  unfold deallocateResource
  rw [if_neg hna]

/-- Deallocation commutes with a pointwise shift of the usage ledger: if two
states agree on workloads and differ by `d` in usage, the same holds after
releasing any list of allocations. -/
theorem foldl_dealloc_shift (allocs : List ResourceAllocation) :
    ∀ (s1 s2 : SchedulerState) (d : ResourceType → ℚ),
      s1.agentWorkloads = s2.agentWorkloads →
      (∀ r, s1.resourceUsage r = s2.resourceUsage r + d r) →
      (allocs.foldl deallocateResource s1).agentWorkloads =
          (allocs.foldl deallocateResource s2).agentWorkloads ∧
        ∀ r, (allocs.foldl deallocateResource s1).resourceUsage r =
          (allocs.foldl deallocateResource s2).resourceUsage r + d r := by
  induction allocs with
  | nil => intro s1 s2 d hW hU; exact ⟨hW, hU⟩
  | cons a as ih =>
    intro s1 s2 d hW hU
    refine ih (deallocateResource s1 a) (deallocateResource s2 a) d ?_ ?_
    · unfold deallocateResource
      split
      · rw [hW]
      · exact hW
    · intro r
      unfold deallocateResource
      split
      · exact hU r
      · by_cases hr : r = a.resourceType
        · simp only [hr, if_true]
          rw [hU a.resourceType]
          ring
        · simp only [hr, if_false]
          exact hU r

theorem allocateResource_effect {s : SchedulerState}
    {req : ResourceRequirement} {tid : String} {a : ResourceAllocation}
    {s' : SchedulerState} (h : allocateResource s req tid = some (a, s')) :
    s'.agentWorkloads = s.agentWorkloads ∧
      (∀ r, s'.resourceUsage r = s.resourceUsage r +
        (if r = req.resourceType then req.amount else 0)) ∧
      a.resourceType = req.resourceType ∧
      a.allocatedAmount = req.amount := by
  simp only [allocateResource] at h
  by_cases hg : s.resourceUsage req.resourceType + req.amount >
      resourceLimits req.resourceType
  · rw [if_pos hg] at h
    exact Option.noConfusion h
  · rw [if_neg hg] at h
    simp only [Option.some.injEq, Prod.mk.injEq] at h
    obtain ⟨ha, hs⟩ := h
    subst hs
    refine ⟨rfl, ?_, ?_, ?_⟩
    · intro r
      by_cases hr : r = req.resourceType <;> simp [hr]
    · rw [← ha]
    · rw [← ha]

/-- If the allocation loop fails, releasing the accumulated allocations from
the intermediate state lands back exactly on the pre-loop usage ledger and
workloads, and the allocation store is untouched. -/
theorem allocLoop_fail_restore (t : ScheduledTask)
    (reqs : List ResourceRequirement) :
    ∀ (s : SchedulerState) (allocs : List ResourceAllocation),
      (allocLoop t reqs s allocs).1 = false →
      (allocLoop t reqs s allocs).2.agentWorkloads =
          (allocs.foldl deallocateResource s).agentWorkloads ∧
        (∀ r, (allocLoop t reqs s allocs).2.resourceUsage r =
          (allocs.foldl deallocateResource s).resourceUsage r) ∧
        (allocLoop t reqs s allocs).2.resourceAllocations =
          s.resourceAllocations := by
  induction reqs with
  | nil =>
    intro s allocs h
    exact absurd h (by simp [allocLoop])
  | cons req rs ih =>
    intro s allocs h
    by_cases hag : req.resourceType = ResourceType.agent
    · simp only [allocLoop, hag, if_true] at h ⊢
      exact ih s allocs h
    · simp only [allocLoop, hag, if_false] at h ⊢
      cases halloc : allocateResource s req t.taskId with
      | none =>
        simp only [halloc] at h ⊢
        exact ⟨by simp, by simp, foldl_dealloc_allocStore allocs s⟩
      | some pr =>
        obtain ⟨a, s'⟩ := pr
        simp only [halloc] at h ⊢
        have heff := allocateResource_effect halloc
        have hih := ih s' (allocs ++ [a]) h
        have hshift := foldl_dealloc_shift allocs s' s
          (fun r => if r = req.resourceType then req.amount else 0)
          heff.1 heff.2.1
        have hna : ¬ a.resourceType = ResourceType.agent := by
          rw [heff.2.2.1]; exact hag
        have happ :
            (allocs ++ [a]).foldl deallocateResource s' =
              deallocateResource (allocs.foldl deallocateResource s') a := by
          rw [List.foldl_append]
          rfl
        refine ⟨?_, ?_, ?_⟩
        · rw [hih.1, happ, deallocateResource_wl_nonagent hna]
          exact hshift.1
        · intro r
          rw [hih.2.1 r, happ, deallocateResource_usage_nonagent hna]
          by_cases hr : r = a.resourceType
          · rw [if_pos hr, hshift.2 r]
            have hrr : r = req.resourceType := by rw [hr, heff.2.2.1]
            rw [heff.2.2.2]
            simp [hrr]
          · rw [if_neg hr, hshift.2 r]
            have hrr : ¬ r = req.resourceType := by
              rw [← heff.2.2.1]; exact hr
            simp [hrr]
        · rw [hih.2.2]
          exact (allocateResource_coreEq halloc).2

/-- If `_allocate_resources` fails, usage, workloads and the allocation
store are restored to their pre-call values. -/
theorem allocateResources_fail_restore (sel : AgentSel) (s : SchedulerState)
    (t : ScheduledTask) (h : (allocateResources sel s t).1 = false) :
    (allocateResources sel s t).2.1.agentWorkloads = s.agentWorkloads ∧
      (∀ r, (allocateResources sel s t).2.1.resourceUsage r =
        s.resourceUsage r) ∧
      (allocateResources sel s t).2.1.resourceAllocations =
        s.resourceAllocations := by
  by_cases hreq : t.agentRequirements ≠ [] ∨ t.capabilityRequirements ≠ []
  · cases hsel : sel s t with
    | none =>
      simp only [allocateResources, hreq, if_true, hsel] at h ⊢
      exact ⟨by simp, by simp, by simp⟩
    | some agentId =>
      simp only [allocateResources, hreq, if_true, hsel] at h ⊢
      have hres := allocLoop_fail_restore _ _ _ _ h
      refine ⟨?_, ?_, hres.2.2⟩
      · rw [hres.1]
        funext x
        simp only [List.foldl_cons, List.foldl_nil]
        unfold deallocateResource
        rw [if_pos rfl]
        by_cases hx : x = agentId
        · simp [hx]
        · have hx2 : ([agentId].contains x) = false := by
            simp [hx]
          simp [hx2, hx]
      · intro r
        rw [hres.2.1 r]
        simp only [List.foldl_cons, List.foldl_nil]
        unfold deallocateResource
        rw [if_pos rfl]
  · simp only [allocateResources, hreq, if_false] at h ⊢
    have hres := allocLoop_fail_restore _ _ _ _ h
    exact ⟨hres.1, hres.2.1, hres.2.2⟩

/-- Scenario for the witness: an agent is available, the compute requirement
exceeds the static limit, so the second allocation step fails after the
first succeeded. -/
def c9task : ScheduledTask :=
  { taskId := "t9", taskType := "generic", priority := .medium,
    createdAt := 0, agentRequirements := ["theory"],
    resourceRequirements := [⟨ResourceType.compute, 2000⟩] }

/-- Provider selection that always offers `agent1`. -/
def oneSel : AgentSel := fun _ _ => some "agent1"

/-- A fresh scheduler state. -/
def c9state : SchedulerState := {}

end Sched

open Sched in
/-- C9: when resource allocation for a task fails after earlier allocations
succeeded, every allocation already made is rolled back — recorded usage,
provider workloads and the allocation store return to their prior values —
and the dispatch path pushes the task back onto the queue with its status
unchanged: it is not moved to the active or completed stores and the
failed-task counter does not move, so the allocation failure never surfaces
as a task failure. -/
theorem c9_rollback_requeue (sel : AgentSel) (s : SchedulerState)
    (t : ScheduledTask) (h : (allocateResources sel s t).1 = false) :
    (∀ r, (executeTask sel s t).resourceUsage r = s.resourceUsage r) ∧
      (executeTask sel s t).agentWorkloads = s.agentWorkloads ∧
      (executeTask sel s t).resourceAllocations = s.resourceAllocations ∧
      (executeTask sel s t).taskQueue =
        s.taskQueue ++ [(allocateResources sel s t).2.2] ∧
      (allocateResources sel s t).2.2.status = t.status ∧
      (allocateResources sel s t).2.2.taskId = t.taskId ∧
      (executeTask sel s t).activeTasks = s.activeTasks ∧
      (executeTask sel s t).completedTasks = s.completedTasks ∧
      (executeTask sel s t).statsTasksFailed = s.statsTasksFailed := by
  have hrest := allocateResources_fail_restore sel s t h
  have hcore := allocateResources_coreEq sel s t
  rcases hres : allocateResources sel s t with ⟨ok, s2, t2⟩
  rw [hres] at h hrest hcore
  simp only at h hrest hcore
  subst h
  have hexec : executeTask sel s t = { s2 with taskQueue := s2.taskQueue ++ [t2] } := by
    unfold executeTask
    rw [hres]
  rw [hexec]
  obtain ⟨⟨hq, ha, hc, -, hf⟩, hid, hst, -⟩ := hcore
  exact ⟨hrest.2.1, hrest.1, hrest.2.2, by rw [hq], hst, hid, ha, hc, hf⟩

open Sched in
/-- Witness for C9: with one available agent and a compute requirement of
2000 against the limit of 1000, allocation fails after the agent allocation
succeeded; the workloads and usage are restored and the task is requeued. -/
theorem c9_rollback_requeue_witness :
    (allocateResources oneSel c9state c9task).1 = false ∧
      (executeTask oneSel c9state c9task).agentWorkloads =
        c9state.agentWorkloads ∧
      (executeTask oneSel c9state c9task).statsTasksFailed =
        c9state.statsTasksFailed := by
  have hfail : (allocateResources oneSel c9state c9task).1 = false := by
    simp only [allocateResources, allocLoop, allocateResource, oneSel,
      c9state, c9task, resourceLimits]
    norm_num
    simp
  have hth := c9_rollback_requeue oneSel c9state c9task hfail
  exact ⟨hfail, hth.2.1, hth.2.2.2.2.2.2.2.2⟩

/-! ## Claim C2: the resource ledger invariant -/

namespace Sched

/-- Find a live allocation by id (`resource_allocations[allocation_id]`). -/
def findAllocById : List ResourceAllocation → Nat → Option ResourceAllocation
  | [], _ => none
  | a :: as, i => if a.allocationId = i then some a else findAllocById as i

/-- Delete a live allocation by id (`del resource_allocations[...]`; ids
are unique uuids, so deleting the first match models the dict delete). -/
def removeAllocById : List ResourceAllocation → Nat → List ResourceAllocation
  | [], _ => []
  | a :: as, i => if a.allocationId = i then as else a :: removeAllocById as i

/-- One operation on the allocation subsystem as the scheduler invokes it:
a non-agent resource request routed through `_allocate_resource` (the call
sites skip agent-type requirements), an agent allocation made by the agent
branch of `_allocate_resources` (which performs no limit check), or the
release of one live allocation. -/
inductive LedgerOp where
  | allocReq (req : ResourceRequirement) (taskId : String)
  | allocAgent (agentId taskId : String)
  | dealloc (allocationId : Nat)

def ledgerAllocReq (s : SchedulerState) (req : ResourceRequirement)
    (tid : String) : SchedulerState :=
  if req.resourceType = ResourceType.agent then s
  else
    match allocateResource s req tid with
    | none => s
    | some pr =>
      { pr.2 with resourceAllocations := pr.2.resourceAllocations ++ [pr.1] }

def ledgerAllocAgent (s : SchedulerState) (agentId tid : String) :
    SchedulerState :=
  let alloc : ResourceAllocation :=
    { allocationId := s.nextId, taskId := tid,
      resourceType := .agent, allocatedAmount := 1,
      allocatedResources := [agentId] }
  let wl := fun x =>
    if x = agentId then s.agentWorkloads x + 1 else s.agentWorkloads x
  { s with
    agentWorkloads := wl
    nextId := s.nextId + 1
    clock := s.clock + 1
    resourceAllocations := s.resourceAllocations ++ [alloc] }

def ledgerDealloc (s : SchedulerState) (i : Nat) : SchedulerState :=
  match findAllocById s.resourceAllocations i with
  | none => s
  | some a =>
    { deallocateResource s a with resourceAllocations := removeAllocById (deallocateResource s a).resourceAllocations i }

def ledgerStep (s : SchedulerState) : LedgerOp → SchedulerState
  | .allocReq req tid => ledgerAllocReq s req tid
  | .allocAgent agentId tid => ledgerAllocAgent s agentId tid
  | .dealloc i => ledgerDealloc s i

/-- The ledger state reached from a fresh scheduler by a list of
operations. -/
def ledgerRun (ops : List LedgerOp) : SchedulerState :=
  ops.foldl ledgerStep {}

/-- Sum of allocated amounts of one resource type over a list of
allocations. -/
def sumLiveList (rt : ResourceType) (l : List ResourceAllocation) : ℚ :=
  (l.map (fun a => if a.resourceType = rt then a.allocatedAmount else 0)).sum

/-- Sum of allocated amounts over the live allocations of one type. -/
def sumLiveType (rt : ResourceType) (s : SchedulerState) : ℚ :=
  sumLiveList rt s.resourceAllocations

/-- Resource requests carry nonnegative amounts (resource quantities). -/
def opNonneg : LedgerOp → Prop
  | .allocReq req _ => 0 ≤ req.amount
  | _ => True

theorem sumLiveList_append (rt : ResourceType) (l : List ResourceAllocation)
    (a : ResourceAllocation) :
    sumLiveList rt (l ++ [a]) =
      sumLiveList rt l +
        (if a.resourceType = rt then a.allocatedAmount else 0) := by
  simp [sumLiveList]

theorem findAllocById_mem {l : List ResourceAllocation} {i : Nat}
    {a : ResourceAllocation} (h : findAllocById l i = some a) : a ∈ l := by
  induction l with
  | nil => cases h
  | cons b bs ih =>
    by_cases hb : b.allocationId = i
    · simp only [findAllocById, hb, if_true, Option.some.injEq] at h
      subst h
      exact List.mem_cons_self _ _
    · simp only [findAllocById, hb, if_false] at h
      exact List.mem_cons_of_mem _ (ih h)

theorem mem_removeAllocById {l : List ResourceAllocation} {i : Nat}
    {a : ResourceAllocation} (h : a ∈ removeAllocById l i) : a ∈ l := by
  induction l with
  | nil => cases h
  | cons b bs ih =>
    by_cases hb : b.allocationId = i
    · simp only [removeAllocById, hb, if_true] at h
      exact List.mem_cons_of_mem _ h
    · simp only [removeAllocById, hb, if_false] at h
      rcases List.mem_cons.mp h with rfl | hmem
      · exact List.mem_cons_self _ _
      · exact List.mem_cons_of_mem _ (ih hmem)

theorem sumLiveList_remove (rt : ResourceType) {l : List ResourceAllocation}
    {i : Nat} {a : ResourceAllocation} (h : findAllocById l i = some a) :
    sumLiveList rt (removeAllocById l i) =
      sumLiveList rt l -
        (if a.resourceType = rt then a.allocatedAmount else 0) := by
  induction l with
  | nil => cases h
  | cons b bs ih =>
    by_cases hb : b.allocationId = i
    · simp only [findAllocById, hb, if_true, Option.some.injEq] at h
      subst h
      simp only [removeAllocById, hb, if_true]
      simp [sumLiveList]
    · simp only [findAllocById, hb, if_false] at h
      simp only [removeAllocById, hb, if_false]
      have := ih h
      simp only [sumLiveList, List.map_cons, List.sum_cons] at this ⊢
      rw [this]
      ring

/-- `_allocate_resource` refuses requests that would exceed the limit. -/
theorem allocateResource_refuse (s : SchedulerState)
    (req : ResourceRequirement) (tid : String)
    (h : s.resourceUsage req.resourceType + req.amount >
      resourceLimits req.resourceType) :
    allocateResource s req tid = none := by
  simp only [allocateResource, if_pos h]

/-- A granted request respected the limit. -/
theorem allocateResource_le {s : SchedulerState} {req : ResourceRequirement}
    {tid : String} {a : ResourceAllocation} {s' : SchedulerState}
    (h : allocateResource s req tid = some (a, s')) :
    s.resourceUsage req.resourceType + req.amount ≤
      resourceLimits req.resourceType := by
  simp only [allocateResource] at h
  by_cases hg : s.resourceUsage req.resourceType + req.amount >
      resourceLimits req.resourceType
  · rw [if_pos hg] at h
    exact Option.noConfusion h
  · exact le_of_not_lt hg

/-- Allocations are exempt from the usage ledger only for the agent type;
the stored non-agent allocations account exactly for the recorded usage and
stay within the limits. -/
def LedgerInv (s : SchedulerState) : Prop :=
  (∀ a ∈ s.resourceAllocations, 0 ≤ a.allocatedAmount) ∧
    ∀ rt, rt ≠ ResourceType.agent →
      s.resourceUsage rt = sumLiveType rt s ∧
        sumLiveType rt s ≤ resourceLimits rt

theorem ledgerInv_init : LedgerInv ({} : SchedulerState) := by
  constructor
  · intro a ha
    cases ha
  · intro rt hrt
    refine ⟨by simp [sumLiveType, sumLiveList], ?_⟩
    cases rt <;> norm_num [sumLiveType, sumLiveList, resourceLimits]

theorem ledgerStep_inv {s : SchedulerState} (op : LedgerOp)
    (hs : LedgerInv s) (hop : opNonneg op) : LedgerInv (ledgerStep s op) := by
  obtain ⟨hamt, hinv⟩ := hs
  cases op with
  | allocReq req tid =>
    show LedgerInv (ledgerAllocReq s req tid)
    by_cases hag : req.resourceType = ResourceType.agent
    · rw [ledgerAllocReq, if_pos hag]
      exact ⟨hamt, hinv⟩
    · rw [ledgerAllocReq, if_neg hag]
      cases halloc : allocateResource s req tid with
      | none => exact ⟨hamt, hinv⟩
      | some pr =>
        obtain ⟨a, s'⟩ := pr
        have heff := allocateResource_effect halloc
        have hle := allocateResource_le halloc
        have hstore := (allocateResource_coreEq halloc).2
        have hcontrib : ∀ rt,
            (if a.resourceType = rt then a.allocatedAmount else 0) =
              (if rt = req.resourceType then req.amount else 0) := by
          intro rt
          rw [heff.2.2.1, heff.2.2.2]
          by_cases hr : rt = req.resourceType
          · rw [if_pos hr.symm, if_pos hr]
          · rw [if_neg (fun he => hr he.symm), if_neg hr]
        have hsum : ∀ rt, sumLiveType rt
            { s' with resourceAllocations :=
                s'.resourceAllocations ++ [a] } =
            sumLiveType rt s +
              (if rt = req.resourceType then req.amount else 0) := by
          intro rt
          show sumLiveList rt (s'.resourceAllocations ++ [a]) = _
          rw [sumLiveList_append, hstore, hcontrib rt]
          rfl
        constructor
        · intro b hb
          simp only [hstore] at hb
          rcases List.mem_append.mp hb with hmem | hmem
          · exact hamt b hmem
          · have hba : b = a := by simpa using hmem
            subst hba
            rw [heff.2.2.2]
            exact hop
        · intro rt hrt
          have husage : ({ s' with resourceAllocations :=
              s'.resourceAllocations ++ [a] } :
                SchedulerState).resourceUsage rt =
              s.resourceUsage rt +
                (if rt = req.resourceType then req.amount else 0) :=
            heff.2.1 rt
          refine ⟨?_, ?_⟩
          · rw [husage, hsum rt, (hinv rt hrt).1]
          · rw [hsum rt]
            by_cases hr : rt = req.resourceType
            · rw [if_pos hr, ← (hinv rt hrt).1, hr]
              exact allocateResource_le halloc
            · rw [if_neg hr]
              rw [add_zero]
              exact (hinv rt hrt).2
  | allocAgent aid tid =>
    show LedgerInv (ledgerAllocAgent s aid tid)
    have hallocs : (ledgerAllocAgent s aid tid).resourceAllocations =
        s.resourceAllocations ++
          [({ allocationId := s.nextId, taskId := tid,
              resourceType := .agent, allocatedAmount := 1,
              allocatedResources := [aid] } : ResourceAllocation)] := rfl
    have hsum : ∀ rt, rt ≠ ResourceType.agent →
        sumLiveType rt (ledgerAllocAgent s aid tid) = sumLiveType rt s := by
      intro rt hrt
      have hne : ¬ (ResourceType.agent = rt) := fun he => hrt he.symm
      show sumLiveList rt (ledgerAllocAgent s aid tid).resourceAllocations = _
      rw [hallocs, sumLiveList_append]
      simp [sumLiveType, hne]
    constructor
    · intro b hb
      rw [hallocs] at hb
      rcases List.mem_append.mp hb with hmem | hmem
      · exact hamt b hmem
      · have hba := List.mem_singleton.mp hmem
        subst hba
        norm_num
    · intro rt hrt
      rw [hsum rt hrt]
      exact ⟨(hinv rt hrt).1, (hinv rt hrt).2⟩
  | dealloc i =>
    show LedgerInv (ledgerDealloc s i)
    cases hfind : findAllocById s.resourceAllocations i with
    | none =>
      rw [ledgerDealloc, hfind]
      exact ⟨hamt, hinv⟩
    | some a =>
      have hred : ledgerDealloc s i =
          { deallocateResource s a with resourceAllocations := removeAllocById (deallocateResource s a).resourceAllocations i } := by
        rw [ledgerDealloc, hfind]
      have hallocs2 : (ledgerDealloc s i).resourceAllocations =
          removeAllocById (deallocateResource s a).resourceAllocations i := by
        rw [hred]
      have husage2 : ∀ rt, (ledgerDealloc s i).resourceUsage rt =
          (deallocateResource s a).resourceUsage rt := by
        intro rt
        rw [hred]
      have hmem := findAllocById_mem hfind
      have hsl : ∀ rt, sumLiveType rt (ledgerDealloc s i) =
          sumLiveType rt s -
            (if a.resourceType = rt then a.allocatedAmount else 0) := by
        intro rt
        show sumLiveList rt (ledgerDealloc s i).resourceAllocations = _
        rw [hallocs2, deallocateResource_allocStore]
        exact sumLiveList_remove rt hfind
      constructor
      · intro b hb
        rw [hallocs2, deallocateResource_allocStore] at hb
        exact hamt b (mem_removeAllocById hb)
      · intro rt hrt
        refine ⟨?_, ?_⟩
        · rw [husage2 rt, hsl rt]
          by_cases hag : a.resourceType = ResourceType.agent
          · have hne : ¬ a.resourceType = rt := by
              rw [hag]
              exact fun he => hrt he.symm
            rw [deallocateResource_usage_agent hag, if_neg hne, sub_zero]
            exact (hinv rt hrt).1
          · rw [deallocateResource_usage_nonagent hag]
            by_cases hr : rt = a.resourceType
            · rw [if_pos hr, if_pos hr.symm, (hinv rt hrt).1]
            · rw [if_neg hr, if_neg (fun he => hr he.symm),
                (hinv rt hrt).1, sub_zero]
        · rw [hsl rt]
          by_cases hr : a.resourceType = rt
          · rw [if_pos hr]
            have hge := hamt a hmem
            have hlim := (hinv rt hrt).2
            linarith
          · rw [if_neg hr]
            have hlim := (hinv rt hrt).2
            linarith

theorem ledgerRun_inv (ops : List LedgerOp)
    (hn : ∀ op ∈ ops, opNonneg op) : LedgerInv (ledgerRun ops) := by
  have hgen : ∀ (l : List LedgerOp) (s : SchedulerState), LedgerInv s →
      (∀ op ∈ l, opNonneg op) → LedgerInv (l.foldl ledgerStep s) := by
    intro l
    induction l with
    | nil => intro s hs _; exact hs
    | cons op l ih =>
      intro s hs hl
      exact ih (ledgerStep s op)
        (ledgerStep_inv op hs (hl op (List.mem_cons_self _ _)))
        (fun o ho => hl o (List.mem_cons_of_mem _ ho))
  exact hgen ops {} ledgerInv_init hn

theorem agent_alloc_accumulates (aid tid : String) :
    ∀ (n : Nat) (s : SchedulerState),
      sumLiveType ResourceType.agent
          ((List.replicate n (LedgerOp.allocAgent aid tid)).foldl
            ledgerStep s) =
        sumLiveType ResourceType.agent s + n := by
  intro n
  induction n with
  | zero => intro s; simp
  | succ m ih =>
    intro s
    rw [List.replicate_succ, List.foldl_cons, ih]
    have hstep : sumLiveType ResourceType.agent
        (ledgerStep s (.allocAgent aid tid)) =
        sumLiveType ResourceType.agent s + 1 := by
      show sumLiveList ResourceType.agent
        (ledgerAllocAgent s aid tid).resourceAllocations = _
      rw [show (ledgerAllocAgent s aid tid).resourceAllocations =
        s.resourceAllocations ++
          [({ allocationId := s.nextId, taskId := tid,
              resourceType := .agent, allocatedAmount := 1,
              allocatedResources := [aid] } : ResourceAllocation)] from rfl]
      rw [sumLiveList_append]
      simp [sumLiveType]
    rw [hstep]
    push_cast
    ring

end Sched

open Sched in
/-- Counterexample to C2 as stated: agent allocations are created by the
agent branch of `_allocate_resources` with amount 1 and are stored among the
live allocations, but are never checked against (or recorded in) the usage
ledger, so 101 concurrent agent allocations push the live total for
`ResourceType.AGENT` to 101, above the configured limit of 100. -/
theorem c2_counterexample :
    sumLiveType ResourceType.agent
        (ledgerRun (List.replicate 101 (LedgerOp.allocAgent "a1" "t"))) =
      101 ∧
      ¬ sumLiveType ResourceType.agent
          (ledgerRun (List.replicate 101 (LedgerOp.allocAgent "a1" "t"))) ≤
        resourceLimits ResourceType.agent := by
  have h := agent_alloc_accumulates "a1" "t" 101 {}
  rw [ledgerRun, h]
  constructor
  · simp [sumLiveType, sumLiveList]
  · simp only [sumLiveType, sumLiveList]
    norm_num [resourceLimits]

open Sched in
/-- C2 (amended): for every resource type other than `AGENT`, in every state
the allocation subsystem reaches with nonnegative request amounts, the
recorded usage equals the sum of the live allocated amounts of that type and
stays within the configured limit; a request whose amount would push usage
past the limit is refused; and deallocating a non-agent allocation lowers
the recorded usage by exactly the allocated amount.  Agent allocations
(amount 1 each) bypass the ledger check. -/
theorem c2_amended_ledger_invariant (ops : List LedgerOp)
    (hn : ∀ op ∈ ops, opNonneg op) :
    (∀ rt, rt ≠ ResourceType.agent →
      (ledgerRun ops).resourceUsage rt = sumLiveType rt (ledgerRun ops) ∧
        sumLiveType rt (ledgerRun ops) ≤ resourceLimits rt) ∧
      (∀ (s : SchedulerState) (req : ResourceRequirement) (tid : String),
        s.resourceUsage req.resourceType + req.amount >
            resourceLimits req.resourceType →
          allocateResource s req tid = none) ∧
      (∀ (s : SchedulerState) (a : ResourceAllocation),
        a.resourceType ≠ ResourceType.agent →
          (deallocateResource s a).resourceUsage a.resourceType =
            s.resourceUsage a.resourceType - a.allocatedAmount) := by
  refine ⟨(ledgerRun_inv ops hn).2, allocateResource_refuse, ?_⟩
  intro s a hag
  rw [deallocateResource_usage_nonagent hag]
  simp

open Sched in
/-- Witness for the amended C2 at a single 60-unit compute request: the
recorded compute usage equals the live sum and stays within the limit. -/
theorem c2_amended_ledger_invariant_witness :
    (ledgerRun [LedgerOp.allocReq ⟨ResourceType.compute, 60⟩ "t1"]
        ).resourceUsage ResourceType.compute =
      sumLiveType ResourceType.compute
        (ledgerRun [LedgerOp.allocReq ⟨ResourceType.compute, 60⟩ "t1"]) ∧
      sumLiveType ResourceType.compute
          (ledgerRun [LedgerOp.allocReq ⟨ResourceType.compute, 60⟩ "t1"]) ≤
        resourceLimits ResourceType.compute :=
  (c2_amended_ledger_invariant
    [LedgerOp.allocReq ⟨ResourceType.compute, 60⟩ "t1"]
    (by
      intro op hop
      have hs : op = LedgerOp.allocReq ⟨ResourceType.compute, 60⟩ "t1" := by
        simpa using hop
      subst hs
      show (0 : ℚ) ≤ 60
      norm_num)).1
    ResourceType.compute (by simp)

/-! ## Claims C3 and C10: retry exhaustion and the statistics update -/

namespace Sched

/-- Fields untouched by completion bookkeeping. -/
def Frame (s1 s2 : SchedulerState) : Prop :=
  s1.taskQueue = s2.taskQueue ∧ s1.statsTasksFailed = s2.statsTasksFailed ∧
    s1.statsTasksCompleted = s2.statsTasksCompleted

theorem frameRefl (s : SchedulerState) : Frame s s := ⟨rfl, rfl, rfl⟩

theorem frameTrans {a b c : SchedulerState} (h1 : Frame a b)
    (h2 : Frame b c) : Frame a c :=
  ⟨h1.1.trans h2.1, h1.2.1.trans h2.2.1, h1.2.2.trans h2.2.2⟩

theorem updateStats_frame {s : SchedulerState} {m : StatMetric} {v : ℚ}
    {s' : SchedulerState} (h : updateStats s m v = some s') : Frame s' s := by
  simp only [updateStats] at h
  by_cases hz : s.statsTasksCompleted = 0
  · rw [if_pos hz] at h
    exact Option.noConfusion h
  · rw [if_neg hz] at h
    cases m with
    | executionTime =>
      simp only [Option.some.injEq] at h
      subst h
      exact ⟨rfl, rfl, rfl⟩
    | waitTime =>
      simp only [Option.some.injEq] at h
      subst h
      exact ⟨rfl, rfl, rfl⟩

theorem recordStat_frame (s : SchedulerState) (m : StatMetric) (v : ℚ) :
    Frame (recordStat s m v).1 s := by
  unfold recordStat
  cases hup : updateStats s m v with
  | none => exact ⟨rfl, rfl, rfl⟩
  | some s' => exact updateStats_frame hup

theorem deallocTaskResources_frame (s : SchedulerState) (t : ScheduledTask) :
    Frame (deallocTaskResources s t) s := by
  have hd := foldl_dealloc_coreEq
    (s.resourceAllocations.filter (fun a => a.taskId == t.taskId)) s
  exact ⟨hd.1, hd.2.2.2.2, hd.2.2.2.1⟩

theorem completeStats_frame (s3 : SchedulerState) (t : ScheduledTask) :
    Frame (completeStats s3 t) s3 := by
  unfold completeStats
  repeat' split
  all_goals try dsimp only
  repeat' split
  all_goals
    first
      | exact frameTrans (recordStat_frame _ _ _) (recordStat_frame _ _ _)
      | exact recordStat_frame _ _ _
      | exact frameRefl _

theorem completeTask_frame (s : SchedulerState) (t : ScheduledTask) :
    Frame (completeTask s t) s := by
  unfold completeTask
  exact frameTrans (completeStats_frame _ _)
    (frameTrans (deallocTaskResources_frame _ _) (frameRefl _))

/-- The value the retry path pushes back onto the queue. -/
def retriedTask (s : SchedulerState) (t : ScheduledTask) : ScheduledTask :=
  { t with
    status := .queued
    retryCount := t.retryCount + 1
    startedAt := some s.clock
    completedAt := some (s.clock + 1)
    errorMessage := some "executor raised"
    scheduledFor := some (s.clock + 2 + t.retryDelayMinutes) }

/-- An executor body that raises on every attempt. -/
def alwaysFail : ScheduledTask → Bool := fun _ => false

/-- Scenario task of spec §8 example 4: `max_retries = 2`, no dependencies,
no resource requirements. -/
def rTask : ScheduledTask :=
  { taskId := "T", taskType := "generic", priority := .medium,
    createdAt := 0, maxRetries := 2 }

/-- Fresh scheduler holding only the retrying task. -/
def c3State : SchedulerState := { taskQueue := [rTask] }

/-- One scheduler tick under the always-failing executor. -/
def c3Step : SchedulerState → SchedulerState :=
  dispatchStep noSel alwaysFail

end Sched

open Sched in
/-- C3: under an executor that raises on every attempt, a failed run while
`retry_count < max_retries` increments the retry counter by exactly one,
keeps it within `max_retries`, and pushes the task back onto the queue with
status `QUEUED`; once the counter reaches `max_retries` the task is not
requeued; every failing run increments the failed counter by one; and in
the concrete scenario with `max_retries = 2` the task is executed exactly
3 times, with retry counts 1, 2, 2 after the successive attempts, and ends
with status `FAILED`, the queue empty, and no further execution on later
ticks. -/
theorem c3_retry_exhaustion :
    (∀ (s : SchedulerState) (t : ScheduledTask),
      t.retryCount < t.maxRetries →
        (runTask alwaysFail s t).taskQueue =
            s.taskQueue ++ [retriedTask s t] ∧
          (retriedTask s t).retryCount = t.retryCount + 1 ∧
          (retriedTask s t).retryCount ≤ t.maxRetries ∧
          (retriedTask s t).status = TaskStatus.queued) ∧
    (∀ (s : SchedulerState) (t : ScheduledTask),
      ¬ t.retryCount < t.maxRetries →
        (runTask alwaysFail s t).taskQueue = s.taskQueue) ∧
    (∀ (s : SchedulerState) (t : ScheduledTask),
      (runTask alwaysFail s t).statsTasksFailed = s.statsTasksFailed + 1) ∧
    rTask.maxRetries = 2 ∧
    ((c3Step c3State).completedTasks.lookup "T").map
        (fun w => (w.retryCount, w.status)) =
      some (1, TaskStatus.queued) ∧
    ((c3Step (c3Step c3State)).completedTasks.lookup "T").map
        (fun w => (w.retryCount, w.status)) =
      some (2, TaskStatus.queued) ∧
    (c3Step (c3Step (c3Step c3State))).statsTasksFailed = 3 ∧
    ((c3Step (c3Step (c3Step c3State))).completedTasks.lookup "T").map
        (fun w => (w.retryCount, w.status)) =
      some (2, TaskStatus.failed) ∧
    (c3Step (c3Step (c3Step c3State))).taskQueue = [] ∧
    (c3Step (c3Step (c3Step (c3Step c3State)))).statsTasksFailed = 3 := by
  refine ⟨?_, ?_, ?_, by decide, by decide, by decide, by decide, by decide,
    by decide, by decide⟩
  · intro s t h
    refine ⟨?_, rfl, ?_, rfl⟩
    · unfold runTask
      simp only [alwaysFail, Bool.false_eq_true, if_false]
      rw [if_pos h]
      rw [(completeTask_frame _ _).1]
      rfl
    · show t.retryCount + 1 ≤ t.maxRetries
      omega
  · intro s t h
    unfold runTask
    simp only [alwaysFail, Bool.false_eq_true, if_false]
    rw [if_neg h]
    rw [(completeTask_frame _ _).1]
  · intro s t
    unfold runTask
    simp only [alwaysFail, Bool.false_eq_true, if_false]
    split
    · rw [(completeTask_frame _ _).2.1]
    · rw [(completeTask_frame _ _).2.1]

open Sched in
/-- Witness for C3: the scenario task is below its retry limit, so its first
failing run requeues it with retry count 1. -/
theorem c3_retry_exhaustion_witness :
    (runTask alwaysFail c3State rTask).taskQueue =
      c3State.taskQueue ++ [retriedTask c3State rTask] ∧
      (retriedTask c3State rTask).retryCount = 1 :=
  ⟨(c3_retry_exhaustion.1 c3State rTask (by decide)).1,
    ((c3_retry_exhaustion.1 c3State rTask (by decide)).2.1).trans rfl⟩

open Sched in
/-- C10 (refuting theorem): the divisor of the running-average update is
`stats["tasks_completed"]`, which is still 0 when the first task completes
through the failure path; the update divides by zero there.  One tick on a
fresh scheduler with a single always-failing task performs the completion
bookkeeping with a zero completed-count (`statsTasksCompleted = 0`),
raising exactly one `ZeroDivisionError` (ghost counter 1).  The last
conjunct characterises the ghost counter: `_update_stats` fails exactly
when the completed-task divisor is zero. -/
theorem c10_divide_by_zero_at_failing_input :
    (c3Step c3State).zeroDivErrors = 1 ∧
      (c3Step c3State).statsTasksCompleted = 0 ∧
      (c3Step c3State).statsTasksFailed = 1 ∧
      ∀ (s : SchedulerState) (m : StatMetric) (v : ℚ),
        (updateStats s m v).isNone = decide (s.statsTasksCompleted = 0) := by
  refine ⟨by decide, by decide, by decide, ?_⟩
  intro s m v
  unfold updateStats
  by_cases hz : s.statsTasksCompleted = 0
  · rw [if_pos hz]
    simp [hz]
  · rw [if_neg hz]
    cases m <;> simp [hz]

/-! ## Claims C5 and C6: the safety monitor -/

namespace Safety

/-- Reduction of the system scan at the scenario reading `memory = 95`:
no CPU violation (0 is below 85), one memory violation at risk `HIGH`
(95 is not strictly above 95). -/
theorem checkSystemSafety_at95 :
    checkSystemSafety {} { memoryPercent := 95 } =
      reportViolation {} .systemOverload .high "system_monitor"
        "High memory usage detected" := by
  unfold checkSystemSafety
  have hcpu : ¬ (({ memoryPercent := 95 } : SystemReading).cpuPercent >
      cpuThreshold) := by
    show ¬ ((0 : ℚ) > 85)
    norm_num
  have hmem : ({ memoryPercent := 95 } : SystemReading).memoryPercent >
      memoryThreshold := by
    show (95 : ℚ) > 80
    norm_num
  have hmem95 : ¬ (({ memoryPercent := 95 } : SystemReading).memoryPercent >
      95) := by
    show ¬ ((95 : ℚ) > 95)
    norm_num
  rw [if_neg hcpu, if_pos hmem, if_neg hmem95]

/-- Reduction of the system scan at reading `memory = 96`: risk `CRITICAL`. -/
theorem checkSystemSafety_at96 :
    checkSystemSafety {} { memoryPercent := 96 } =
      reportViolation {} .systemOverload .critical "system_monitor"
        "High memory usage detected" := by
  unfold checkSystemSafety
  have hcpu : ¬ (({ memoryPercent := 96 } : SystemReading).cpuPercent >
      cpuThreshold) := by
    show ¬ ((0 : ℚ) > 85)
    norm_num
  have hmem : ({ memoryPercent := 96 } : SystemReading).memoryPercent >
      memoryThreshold := by
    show (96 : ℚ) > 80
    norm_num
  have hmem95 : ({ memoryPercent := 96 } : SystemReading).memoryPercent >
      95 := by
    show (96 : ℚ) > 95
    norm_num
  rw [if_neg hcpu, if_pos hmem, if_pos hmem95]

end Safety

open Safety in
/-- Counterexample to C5 as stated: injecting `memory_percent = 95` creates
exactly one active `SYSTEM_OVERLOAD` violation, but its risk level is
`HIGH`, not `CRITICAL` (the scan uses `CRITICAL` only strictly above 95),
and handling it matches the *first* resource-class rule in insertion order
— `cpu_usage_limit` with action `warn` — so the response is a warning and
the `system_overload` emergency protocol is never executed (no emergency
counted, no `emergency_triggered` event, no notifications). -/
theorem c5_counterexample :
    (checkSystemSafety {} { memoryPercent := 95 }).activeViolations.map
        (fun v => (v.violationType, v.riskLevel, v.resolutionActions)) =
      [(ViolationType.systemOverload, RiskLevel.high, ["warning_issued"])] ∧
      (checkSystemSafety {}
        { memoryPercent := 95 }).statsEmergenciesTriggered = 0 ∧
      (checkSystemSafety {} { memoryPercent := 95 }).events =
        [SafetyEvent.violationDetected 0] ∧
      (checkSystemSafety {} { memoryPercent := 95 }).notifications = [] ∧
      RiskLevel.high ≠ RiskLevel.critical := by
  rw [checkSystemSafety_at95]
  exact ⟨by decide, by decide, by decide, by decide, by decide⟩

open Safety in
/-- C5 (amended): a `memory_percent = 95` reading produces exactly one
active `SYSTEM_OVERLOAD` violation with risk level `HIGH` (`CRITICAL`
requires a reading strictly above 95, e.g. 96), the violation stays active
(not auto-resolved), and handling it matches the first resource-class rule
`cpu_usage_limit` whose action is `warn`: the recorded response is
`warning_issued` and no emergency protocol runs in either case. -/
theorem c5_amended_memory_overload_response :
    (checkSystemSafety {} { memoryPercent := 95 }).activeViolations.map
        (fun v => (v.violationType, v.riskLevel, v.resolutionActions)) =
      [(ViolationType.systemOverload, RiskLevel.high, ["warning_issued"])] ∧
      (checkSystemSafety {}
        { memoryPercent := 95 }).statsEmergenciesTriggered = 0 ∧
      (checkSystemSafety {} { memoryPercent := 96 }).activeViolations.map
          (fun v => (v.violationType, v.riskLevel, v.resolutionActions)) =
        [(ViolationType.systemOverload, RiskLevel.critical,
          ["warning_issued"])] ∧
      (checkSystemSafety {}
        { memoryPercent := 96 }).statsEmergenciesTriggered = 0 ∧
      (safetyRules.find? (violationMatchesRule
          { violationId := 0, violationType := .systemOverload,
            riskLevel := .high, source := "system_monitor",
            description := "d" })).map (fun r => (r.ruleId, r.action)) =
        some ("cpu_usage_limit", "warn") := by
  rw [checkSystemSafety_at95, checkSystemSafety_at96]
  exact ⟨by decide, by decide, by decide, by decide, by decide⟩

namespace Safety

/-- The status the spec derives: `SAFE` with no active violations,
otherwise thresholds on the maximum risk weight (taking the maximum with
the neutral element 0). -/
def specStatus (violations : List SafetyViolation) : SafetyStatus :=
  if violations.isEmpty then .safe
  else
    let maxRisk := (violations.map (fun v => riskWeight v.riskLevel)).foldl
      max 0
    if maxRisk ≥ 8 / 10 then .emergency
    else if maxRisk ≥ 6 / 10 then .critical
    else if maxRisk ≥ 4 / 10 then .warning
    else .safe

theorem riskWeight_nonneg (rl : RiskLevel) : 0 ≤ riskWeight rl := by
  cases rl <;> norm_num [riskWeight]

theorem assessedStatus_eq_specStatus (violations : List SafetyViolation) :
    assessedStatus violations = specStatus violations := by
  cases violations with
  | nil => rfl
  | cons v vs =>
    unfold assessedStatus specStatus
    simp only [List.map_cons, List.isEmpty_cons, List.foldl_cons,
      Bool.false_eq_true, if_false,
      max_eq_right (riskWeight_nonneg v.riskLevel)]

theorem assess_status (s : MonitorState) :
    (assessSystemRisk s).systemSafetyStatus =
      assessedStatus s.activeViolations := by
  unfold assessSystemRisk
  by_cases h : assessedStatus s.activeViolations ≠ s.systemSafetyStatus
  · rw [if_pos h]
  · rw [if_neg h]
    exact (not_ne_iff.mp h).symm

theorem assess_active (s : MonitorState) :
    (assessSystemRisk s).activeViolations = s.activeViolations := by
  unfold assessSystemRisk
  by_cases h : assessedStatus s.activeViolations ≠ s.systemSafetyStatus
  · rw [if_pos h]
  · rw [if_neg h]

theorem assess_events_eq (s : MonitorState)
    (h : assessedStatus s.activeViolations = s.systemSafetyStatus) :
    (assessSystemRisk s).events = s.events := by
  unfold assessSystemRisk
  rw [if_neg (not_ne_iff.mpr h)]

theorem assess_events_ne (s : MonitorState)
    (h : assessedStatus s.activeViolations ≠ s.systemSafetyStatus) :
    (assessSystemRisk s).events = s.events ++
      [SafetyEvent.safetyStatusChanged s.systemSafetyStatus
        (assessedStatus s.activeViolations)] := by
  unfold assessSystemRisk
  rw [if_pos h]

end Safety

open Safety in
/-- C6: risk assessment maps each active violation's risk level to a
numeric weight (`minimal = 0.1` up to `critical = 1`), derives the overall
status from the maximum weight among active violations — at least 0.8 gives
`EMERGENCY`, at least 0.6 `CRITICAL`, at least 0.4 `WARNING`, otherwise
`SAFE`, and `SAFE` when no violations are active — and fires the
status-changed event exactly once per transition: the event list grows by
one entry exactly when the derived status differs from the current one, and
re-assessing the unchanged violation set emits no further event. -/
theorem c6_risk_aggregation (s : MonitorState) :
    (riskWeight RiskLevel.minimal = 1 / 10 ∧
      riskWeight RiskLevel.critical = 1) ∧
    (∀ violations, assessedStatus violations = specStatus violations) ∧
    specStatus [] = SafetyStatus.safe ∧
    (assessSystemRisk s).systemSafetyStatus =
      assessedStatus s.activeViolations ∧
    (assessedStatus s.activeViolations = s.systemSafetyStatus →
      (assessSystemRisk s).events = s.events) ∧
    (assessedStatus s.activeViolations ≠ s.systemSafetyStatus →
      (assessSystemRisk s).events = s.events ++
        [SafetyEvent.safetyStatusChanged s.systemSafetyStatus
          (assessedStatus s.activeViolations)]) ∧
    (assessSystemRisk (assessSystemRisk s)).events =
      (assessSystemRisk s).events := by
  refine ⟨⟨rfl, rfl⟩, assessedStatus_eq_specStatus, rfl, assess_status s,
    assess_events_eq s, assess_events_ne s, ?_⟩
  apply assess_events_eq
  rw [assess_active s, assess_status s]

namespace Safety

/-- A monitored state holding one active `CRITICAL` violation while the
recorded status is still `SAFE`. -/
def c6Violation : SafetyViolation :=
  { violationId := 0, violationType := .systemOverload,
    riskLevel := .critical, source := "system_monitor", description := "d" }

/-- Monitor state for the C6 witness. -/
def c6State : MonitorState := { activeViolations := [c6Violation] }

theorem c6State_assessed : assessedStatus c6State.activeViolations =
    SafetyStatus.emergency := by
  show assessedStatus [c6Violation] = _
  unfold assessedStatus
  simp only [List.map_cons, List.map_nil, List.foldl_cons, List.foldl_nil]
  rw [if_pos]
  norm_num [riskWeight, c6Violation]

end Safety

open Safety in
/-- Witness for C6: one active critical violation turns a `SAFE` monitor to
`EMERGENCY` and fires exactly one status-changed event; a second assessment
adds none. -/
theorem c6_risk_aggregation_witness :
    (assessSystemRisk c6State).events =
      c6State.events ++ [SafetyEvent.safetyStatusChanged SafetyStatus.safe
        SafetyStatus.emergency] ∧
      (assessSystemRisk (assessSystemRisk c6State)).events =
        (assessSystemRisk c6State).events := by
  have hne : assessedStatus c6State.activeViolations ≠
      c6State.systemSafetyStatus := by
    rw [c6State_assessed]
    decide
  have h := (c6_risk_aggregation c6State).2.2.2.2.2.1 hne
  have hidem := (c6_risk_aggregation c6State).2.2.2.2.2.2
  constructor
  · rw [h, c6State_assessed]
    rfl
  · exact hidem


/-! ## Claims C7 and C8: pause/resume and the quality gate -/

namespace Wf

/-- The execution walk appends consecutive indices: starting at `i`, the
ghost trace extends by `[i, i+1, ...]`. -/
theorem execSteps_trace (stepExec : Nat → WorkflowStep → Bool) :
    ∀ (fuel i : Nat) (c : AutomatedResearchCycle) (tr : List Nat),
      ∃ m, (execSteps stepExec fuel i c tr).2.2 = tr ++ List.range' i m := by
  intro fuel
  induction fuel with
  | zero =>
    intro i c tr
    exact ⟨0, by simp [execSteps]⟩
  | succ n ih =>
    intro i c tr
    unfold execSteps
    cases hstep : c.template.steps[i]? with
    | none => exact ⟨0, by simp⟩
    | some step =>
      dsimp only
      by_cases hdep : checkStepDependencies { c with currentStepIndex := i }
          step
      · rw [if_pos hdep]
        by_cases hex : stepExec i step
        · rw [if_pos hex]
          obtain ⟨m, hm⟩ := ih (i + 1) _ (tr ++ [i])
          refine ⟨m + 1, ?_⟩
          rw [hm, List.range'_succ, List.append_assoc]
          rfl
        · rw [if_neg hex]
          exact ⟨1, by simp [List.range']⟩
      · rw [if_neg hdep]
        exact ⟨0, by simp⟩

/-- The full cycle run executes a prefix `[0, 1, …]` of the step indices:
the walk always restarts at index 0. -/
theorem executeResearchCycle_trace
    (plan : AutomatedResearchCycle → Option (List (String × String)))
    (stepExec : Nat → WorkflowStep → Bool) (check : String → Bool)
    (c : AutomatedResearchCycle) :
    ∃ k, (executeResearchCycle plan stepExec check c).2 = List.range k := by
  unfold executeResearchCycle
  dsimp only
  cases hplan : plan { c with state := WorkflowState.planning } with
  | none => exact ⟨0, rfl⟩
  | some assignments =>
    dsimp only
    obtain ⟨m, hm⟩ := execSteps_trace stepExec
      c.template.steps.length 0
      { c with
        assignedAgents := assignments
        state := WorkflowState.executing } []
    rw [List.nil_append] at hm
    have hm' : (executeWorkflowSteps stepExec
        { c with
          assignedAgents := assignments
          state := WorkflowState.executing }).2.2 = List.range' 0 m := hm
    refine ⟨m, ?_⟩
    rw [List.range_eq_range']
    split
    · split
      · exact hm'
      · exact hm'
    · exact hm'

/-- Scenario step constructor. -/
def mkStep (sid : String) (deps : List String) (done : Bool) : WorkflowStep :=
  { stepId := sid, stepName := sid, requiredAgentType := "theory",
    requiredCapabilities := [], inputRequirements := [],
    outputDeliverables := [], estimatedDurationMinutes := 5,
    dependencies := deps, isCompleted := done }

/-- Three-step template: `a → b → c`, four named success criteria. -/
def c7Template : ResearchWorkflowTemplate :=
  { templateId := "t", templateName := "t",
    steps := [mkStep "a" [] true, mkStep "b" ["a"] true,
      mkStep "c" ["b"] false],
    successCriteria := ["k1", "k2", "k3", "k4"], failureConditions := [] }

/-- A cycle paused at step index 2 with steps 0 and 1 already completed. -/
def c7Cycle : AutomatedResearchCycle :=
  { cycleId := "cy", projectId := "p", template := c7Template,
    state := .paused, currentStepIndex := 2 }

/-- Engine holding the paused cycle. -/
def c7Engine : WorkflowEngine := { activeCycles := [("cy", c7Cycle)] }

/-- The cycle value `resume_cycle` hands to the spawned
`_execute_research_cycle` run. -/
def c7Resumed : AutomatedResearchCycle :=
  { c7Cycle with state := WorkflowState.executing }

end Wf

open Wf in
/-- Counterexample to C7 as stated: resuming the cycle paused at step
index 2 (steps 0 and 1 completed) restarts the execution walk at index 0,
re-executing the already-completed steps — the ghost trace of executed
indices is `[0, 1, 2]`, not a walk starting at index 2. -/
theorem c7_counterexample :
    c7Cycle.state = WorkflowState.paused ∧
      c7Cycle.currentStepIndex = 2 ∧
      c7Cycle.template.steps.map (fun st => st.isCompleted) =
        [true, true, false] ∧
      (resumeCycle c7Engine "cy").2 = true ∧
      ((resumeCycle c7Engine "cy").1.activeCycles.lookup "cy").map
        (fun c => c.state) = some WorkflowState.executing ∧
      (executeWorkflowSteps (fun _ _ => true) c7Resumed).2.2 = [0, 1, 2] ∧
      (executeWorkflowSteps (fun _ _ => true) c7Resumed).2.2.head? =
        some 0 ∧
      (0 : Nat) ≠ 2 := by
  refine ⟨rfl, rfl, rfl, rfl, rfl, rfl, rfl, by decide⟩

open Wf in
/-- C7 (amended): pausing succeeds exactly when the cycle is registered and
not terminal (`COMPLETED`/`FAILED`); resuming succeeds exactly on a
`PAUSED` cycle and marks it `EXECUTING`, but the spawned run then restarts
the whole pipeline — the execution walk always visits a prefix
`[0, 1, …]` of the step indices from 0, re-executing completed steps,
rather than re-entering at the saved step index. -/
theorem c7_amended_pause_resume :
    (∀ (e : WorkflowEngine) (cid : String),
      (pauseCycle e cid).2 = true ↔
        ∃ c, e.activeCycles.lookup cid = some c ∧
          c.state ≠ WorkflowState.completed ∧
          c.state ≠ WorkflowState.failed) ∧
    (∀ (e : WorkflowEngine) (cid : String) (c : AutomatedResearchCycle),
      e.activeCycles.lookup cid = some c → c.state = WorkflowState.paused →
        (resumeCycle e cid).2 = true ∧
          (resumeCycle e cid).1.activeCycles.lookup cid =
            some { c with state := WorkflowState.executing }) ∧
    (∀ (plan : AutomatedResearchCycle → Option (List (String × String)))
      (stepExec : Nat → WorkflowStep → Bool) (check : String → Bool)
      (c : AutomatedResearchCycle),
      ∃ k, (executeResearchCycle plan stepExec check c).2 = List.range k) := by
  refine ⟨?_, ?_, executeResearchCycle_trace⟩
  · intro e cid
    unfold pauseCycle
    cases hl : e.activeCycles.lookup cid with
    | none =>
      dsimp only
      constructor
      · intro h
        exact Bool.noConfusion h
      · rintro ⟨c, hc, -⟩
        exact Option.noConfusion hc
    | some c =>
      dsimp only
      by_cases hterm : c.state = WorkflowState.completed ∨
          c.state = WorkflowState.failed
      · rw [if_pos hterm]
        constructor
        · intro h
          exact Bool.noConfusion h
        · rintro ⟨c', hc', h1, h2⟩
          obtain rfl := Option.some.inj hc'
          rcases hterm with h | h
          · exact absurd h h1
          · exact absurd h h2
      · rw [if_neg hterm]
        refine ⟨fun _ => ⟨c, rfl, ?_, ?_⟩, fun _ => rfl⟩
        · exact fun h => hterm (Or.inl h)
        · exact fun h => hterm (Or.inr h)
  · intro e cid c hl hp
    unfold resumeCycle
    rw [hl]
    dsimp only
    rw [if_neg (fun hne => hne hp)]
    exact ⟨rfl, lookup_aset_self _ _ _⟩

open Wf in
/-- Witness for the amended C7: the paused scenario cycle can be paused and
resumed, and the resumed run's executed-index trace is a prefix of the
indices starting at 0. -/
theorem c7_amended_pause_resume_witness :
    (pauseCycle c7Engine "cy").2 = true ∧
      (resumeCycle c7Engine "cy").2 = true := by
  have hp := (c7_amended_pause_resume.1 c7Engine "cy").mpr
    ⟨c7Cycle, rfl, by decide, by decide⟩
  have hr := (c7_amended_pause_resume.2.1 c7Engine "cy" c7Cycle rfl rfl).1
  exact ⟨hp, hr⟩

namespace Wf

/-- Criteria evaluator satisfying three of the four scenario criteria. -/
def c8check : String → Bool := fun k => !(k == "k4")

end Wf

open Wf in
/-- C8: the validation phase sets
`quality_score = satisfied / total` (0 when the template declares no
criteria) and passes exactly when the score reaches the quality threshold
(default 0.7); satisfying 3 of the 4 scenario criteria yields a quality
score of 3/4 = 0.75, which passes the 0.7 gate. -/
theorem c8_quality_gate :
    (∀ (check : String → Bool) (c : AutomatedResearchCycle),
      (validateWorkflowResults check c).1.qualityScore =
        (if 0 < c.template.successCriteria.length then
          ((c.template.successCriteria.filter check).length : ℚ) /
            (c.template.successCriteria.length : ℚ)
        else 0) ∧
      (validateWorkflowResults check c).2 =
        decide (qualityThreshold ≤
          (validateWorkflowResults check c).1.qualityScore)) ∧
      qualityThreshold = 7 / 10 ∧
      (validateWorkflowResults c8check c7Cycle).1.qualityScore = 3 / 4 ∧
      (validateWorkflowResults c8check c7Cycle).2 = true := by
  have hs : (validateWorkflowResults c8check c7Cycle).1.qualityScore =
      3 / 4 := by
    have h1 : (c7Cycle.template.successCriteria.filter c8check).length = 3 :=
      by decide
    have h2 : c7Cycle.template.successCriteria.length = 4 := by decide
    rw [show (validateWorkflowResults c8check c7Cycle).1.qualityScore =
      (if 0 < c7Cycle.template.successCriteria.length then
        ((c7Cycle.template.successCriteria.filter c8check).length : ℚ) /
          (c7Cycle.template.successCriteria.length : ℚ)
      else 0) from rfl]
    rw [if_pos (by rw [h2]; norm_num), h1, h2]
    norm_num
  refine ⟨fun check c => ⟨rfl, rfl⟩, rfl, hs, ?_⟩
  rw [show (validateWorkflowResults c8check c7Cycle).2 =
    decide (qualityThreshold ≤
      (validateWorkflowResults c8check c7Cycle).1.qualityScore) from rfl]
  rw [hs]
  rw [decide_eq_true_eq]
  norm_num [qualityThreshold]


end MiniCern
